import Mathlib

/-!
Shallow embedding of the Finance-Tracking-App backend (finance_app_backend/)
and proofs about it.

Conventions of the embedding:
* Python `float` amounts and balances are modelled as exact rationals (`ℚ`);
  the spec itself (section 4.2) flags the floating-point representation as a
  defect to fix, so the algebraic content of the code is stated over `ℚ`.
* Integer primary keys are `Nat`; `datetime` values are `Nat` timestamps.
* The SQLAlchemy session is modelled as a pair of database states:
  `persisted` (what the database holds after the last commit) and `pending`
  (the in-transaction view including flushed/dirty objects).  `db.commit()`
  copies `pending` into `persisted`.  A Python exception aborts the request
  and the session is closed (`database.get_db` closes it in a `finally:`),
  which rolls back everything not committed, so the observable final state
  of a failed request is the `persisted` component at the raise point.
* A call log of every `_adjust_account_balance` invocation (`log`) is kept
  in the session so that which adjustments an operation performs is an
  observable of the model.
* `None`-able query parameters are `Option`; Python truthiness (`if user_id:`)
  is modelled faithfully: `None` and `0` (or `""`) are falsy.
-/

namespace FinanceApp

/-- Row of the `accounts` table (models.py, class Account). -/
structure Account where
  id : Nat
  name : String
  balance : ℚ
  owner_id : Nat
deriving DecidableEq

/-- Row of the `transactions` table (models.py, class Transaction). -/
structure Transaction where
  id : Nat
  amount : ℚ
  type : String
  description : Option String
  date : Nat
  user_id : Nat
  account_id : Nat
  category_id : Option Nat
deriving DecidableEq

/-- Row of the `categories` table as declared by the ORM model
(models.py, class Category): only `id` and `name`; the model declares no
`type` column, and marks `name` unique. -/
structure Category where
  id : Nat
  name : String
deriving DecidableEq

/-- Column attributes declared by the Category ORM model in models.py
(lines 31-38): `id` and `name` only. -/
def categoryModelColumns : List String := ["id", "name"]

/-- In models.py the `name` column of Category carries `unique=True`. -/
def categoryModelNameUnique : Bool := true

/-- Attributes of `models.Category` that `crud.create_category`
(crud.py lines 75-87) dereferences: it filters on `name` and `type` and
constructs `models.Category(name=..., type=...)`. -/
def createCategoryReferencedColumns : List String := ["name", "type"]

/-- Row of the `budgets` table.  Modelled from the spec: the Budget ORM model
and all budget CRUD functions are absent from the source tree (main.py calls
`crud.create_budget`, `crud.get_budget`, ... which do not exist in crud.py);
fields follow spec section 3 and the alembic migration
c3d4e5f6g7h8_create_budgets_table.py. -/
structure Budget where
  id : Nat
  amount : ℚ
  period : String
  user_id : Nat
  category_id : Nat
deriving DecidableEq

/-- State of the relational store. -/
structure DB where
  accounts : List Account
  transactions : List Transaction
  categories : List Category
  budgets : List Budget
deriving DecidableEq

/-- Argument record of one `_adjust_account_balance` invocation. -/
structure AdjustCall where
  account_id : Nat
  amount : ℚ
  transaction_type : String
deriving DecidableEq

/-- SQLAlchemy session: committed state, in-transaction state, and the log of
balance-adjustment calls made so far in this request. -/
structure Sess where
  persisted : DB
  pending : DB
  log : List AdjustCall
deriving DecidableEq

/-- Model of `db.commit()`. -/
def commit (s : Sess) : Sess := { s with persisted := s.pending }

/-- Session at the start of a request: committed and pending states agree. -/
def initSess (d : DB) : Sess := ⟨d, d, []⟩

/-- Exceptions the embedded code can raise. -/
inductive PyError where
  | invalidTransactionType
deriving DecidableEq

/-- Pydantic schema `schemas.TransactionCreate`. -/
structure TransactionCreate where
  amount : ℚ
  type : String
  description : Option String
  date : Option Nat
  account_id : Nat
  category_id : Option Nat
deriving DecidableEq

/-- Pydantic schema `schemas.TransactionUpdate`; `none` means the field was
not supplied (pydantic `exclude_unset`). -/
structure TransactionUpdate where
  amount : Option ℚ
  type : Option String
  description : Option String
  date : Option Nat
  account_id : Option Nat
  category_id : Option Nat
deriving DecidableEq

/-- Pydantic schema `schemas.AccountUpdate`; `none` means not supplied. -/
structure AccountUpdate where
  name : Option String
  balance : Option ℚ
deriving DecidableEq

/-- Pydantic schema `schemas.AccountCreate` (balance defaults to 0.0 at the
schema layer; the value after parsing is always present). -/
structure AccountCreate where
  name : String
  balance : ℚ
deriving DecidableEq

/-- Pydantic schema `schemas.BudgetCreate`.  Modelled from the spec
(section 6: create budget request shape), since schemas.py in the source
tree lacks the budget schemas main.py refers to. -/
structure BudgetCreate where
  amount : ℚ
  period : String
  category_id : Nat
deriving DecidableEq

/-- Replacement of the first list element whose id matches, leaving the rest
unchanged: the effect of mutating the single ORM object a query returned. -/
def updateFirstAccount : List Account → Nat → Account → List Account
  | [], _, _ => []
  | a :: rest, aid, a2 =>
    if a.id = aid then a2 :: rest else a :: updateFirstAccount rest aid a2

/-- Replacement of the first transaction row whose id matches. -/
def updateFirstTransaction : List Transaction → Nat → Transaction → List Transaction
  | [], _, _ => []
  | t :: rest, tid, t2 =>
    if t.id = tid then t2 :: rest else t :: updateFirstTransaction rest tid t2

/-- crud.py `_adjust_account_balance` (lines 125-138): loads the account by
id (unscoped), adds the amount for `income`, subtracts it for `expense`,
raises `ValueError` for any other type, and commits; if the account is
missing it does nothing and returns `None`. -/
def adjust_account_balance (s : Sess) (account_id : Nat) (amount : ℚ)
    (transaction_type : String) : Sess × Except PyError (Option Account) :=
  let s := { s with log := s.log ++ [AdjustCall.mk account_id amount transaction_type] }
  match s.pending.accounts.find? (fun a => a.id == account_id) with
  | none => (s, Except.ok none)
  | some account =>
    if transaction_type == "income" then
      let account := { account with balance := account.balance + amount }
      let s := commit { s with pending :=
        { s.pending with accounts := updateFirstAccount s.pending.accounts account_id account } }
      (s, Except.ok (some account))
    else if transaction_type == "expense" then
      let account := { account with balance := account.balance - amount }
      let s := commit { s with pending :=
        { s.pending with accounts := updateFirstAccount s.pending.accounts account_id account } }
      (s, Except.ok (some account))
    else
      (s, Except.error PyError.invalidTransactionType)

/-- crud.py `create_user_transaction` (lines 140-156): insert the row
(flush), adjust the account balance, final commit.  `newId` stands for the
id the database assigns; an omitted date becomes the server timestamp. -/
def create_user_transaction (s : Sess) (transaction : TransactionCreate)
    (user_id : Nat) (newId : Nat) : Sess × Except PyError Transaction :=
  let t : Transaction :=
    { id := newId
      amount := transaction.amount
      type := transaction.type
      description := transaction.description
      date := transaction.date.getD 0
      user_id := user_id
      account_id := transaction.account_id
      category_id := transaction.category_id }
  let s := { s with pending :=
    { s.pending with transactions := s.pending.transactions ++ [t] } }
  match adjust_account_balance s t.account_id t.amount t.type with
  | (s, Except.error e) => (s, Except.error e)
  | (s, Except.ok _) => (commit s, Except.ok t)

/-- Application of a partial update to a transaction row
(`model_dump(exclude_unset=True)` followed by `setattr`). -/
def applyTransactionUpdate (t : Transaction) (u : TransactionUpdate) : Transaction :=
  { t with
    amount := u.amount.getD t.amount
    type := u.type.getD t.type
    description := u.description.orElse (fun _ => t.description)
    date := u.date.getD t.date
    account_id := u.account_id.getD t.account_id
    category_id := u.category_id.orElse (fun _ => t.category_id) }

/-- crud.py `update_transaction` (lines 206-231): capture old
(amount, type, account_id), apply the field changes, then the three-way
diff: account moved / amount-or-type changed / nothing balance-relevant
changed, with the corresponding balance adjustments, then a final commit. -/
def update_transaction (s : Sess) (db_transaction : Transaction)
    (transaction_update : TransactionUpdate) : Sess × Except PyError Transaction :=
  let old_amount := db_transaction.amount
  let old_type := db_transaction.type
  let old_account_id := db_transaction.account_id
  let newTxn := applyTransactionUpdate db_transaction transaction_update
  let s := { s with pending :=
    { s.pending with transactions :=
        updateFirstTransaction s.pending.transactions db_transaction.id newTxn } }
  let new_amount := newTxn.amount
  let new_type := newTxn.type
  let new_account_id := newTxn.account_id
  if old_account_id ≠ new_account_id then
    let reverse_type := if old_type == "income" then "expense" else "income"
    match adjust_account_balance s old_account_id old_amount reverse_type with
    | (s, Except.error e) => (s, Except.error e)
    | (s, Except.ok _) =>
      match adjust_account_balance s new_account_id new_amount new_type with
      | (s, Except.error e) => (s, Except.error e)
      | (s, Except.ok _) => (commit s, Except.ok newTxn)
  else if old_amount ≠ new_amount ∨ old_type ≠ new_type then
    let reverse_type := if old_type == "income" then "expense" else "income"
    match adjust_account_balance s old_account_id old_amount reverse_type with
    | (s, Except.error e) => (s, Except.error e)
    | (s, Except.ok _) =>
      match adjust_account_balance s new_account_id new_amount new_type with
      | (s, Except.error e) => (s, Except.error e)
      | (s, Except.ok _) => (commit s, Except.ok newTxn)
  else
    (commit s, Except.ok newTxn)

/-- crud.py `delete_transaction` (lines 233-237): reverse the transaction
effect (opposite type, same amount), delete the row, commit. -/
def delete_transaction (s : Sess) (db_transaction : Transaction) :
    Sess × Except PyError Unit :=
  let reverse_type := if db_transaction.type == "income" then "expense" else "income"
  match adjust_account_balance s db_transaction.account_id db_transaction.amount reverse_type with
  | (s, Except.error e) => (s, Except.error e)
  | (s, Except.ok _) =>
    let s := { s with pending :=
      { s.pending with transactions :=
          s.pending.transactions.filter (fun t => t.id != db_transaction.id) } }
    (commit s, Except.ok ())

/-- crud.py `create_user_account` (lines 42-47). -/
def create_user_account (s : Sess) (account : AccountCreate) (user_id : Nat)
    (newId : Nat) : Sess × Except PyError Account :=
  let a : Account :=
    { id := newId, name := account.name, balance := account.balance, owner_id := user_id }
  let s := commit { s with pending :=
    { s.pending with accounts := s.pending.accounts ++ [a] } }
  (s, Except.ok a)

/-- crud.py `update_account` (lines 58-66): every supplied field, including
`balance`, is written onto the row verbatim, then committed. -/
def update_account (s : Sess) (db_account : Account) (account_update : AccountUpdate) :
    Sess × Except PyError Account :=
  let a : Account :=
    { db_account with
      name := account_update.name.getD db_account.name
      balance := account_update.balance.getD db_account.balance }
  let s := commit { s with pending :=
    { s.pending with accounts := updateFirstAccount s.pending.accounts db_account.id a } }
  (s, Except.ok a)

/-- Execution of one crud transaction-create request against a committed
database state; yields the final committed state, the adjustment-call log
and the outcome. -/
def run_create_user_transaction (d : DB) (tc : TransactionCreate) (uid newId : Nat) :
    DB × List AdjustCall × Except PyError Transaction :=
  let r := create_user_transaction (initSess d) tc uid newId
  (r.1.persisted, r.1.log, r.2)

/-- Execution of one crud transaction-update request against a committed
database state. -/
def run_update_transaction (d : DB) (t0 : Transaction) (u : TransactionUpdate) :
    DB × List AdjustCall × Except PyError Transaction :=
  let r := update_transaction (initSess d) t0 u
  (r.1.persisted, r.1.log, r.2)

/-- Execution of one crud transaction-delete request against a committed
database state. -/
def run_delete_transaction (d : DB) (t0 : Transaction) :
    DB × List AdjustCall × Except PyError Unit :=
  let r := delete_transaction (initSess d) t0
  (r.1.persisted, r.1.log, r.2)

/-- Execution of one crud account-update request against a committed
database state. -/
def run_update_account (d : DB) (a0 : Account) (u : AccountUpdate) :
    DB × List AdjustCall × Except PyError Account :=
  let r := update_account (initSess d) a0 u
  (r.1.persisted, r.1.log, r.2)

/-- Signed contribution of a transaction per the spec invariant
(`t.amount if t.type == "income" else -t.amount`). -/
def signedAmount (t : Transaction) : ℚ :=
  if t.type == "income" then t.amount else -t.amount

/-- Contribution of a transaction to a given account id. -/
def contribTo (aid : Nat) (t : Transaction) : ℚ :=
  if t.account_id == aid then signedAmount t else 0

/-- Net signed sum of the transactions of account `aid`. -/
def acctSum (ts : List Transaction) (aid : Nat) : ℚ :=
  (ts.map (contribTo aid)).sum

/-- Spec section 8 ledger invariant: every stored balance equals the net
signed sum of that account's current transactions. -/
def BalanceInvariant (d : DB) : Prop :=
  ∀ a ∈ d.accounts, a.balance = acctSum d.transactions a.id

/-- Balance of the account with a given id, if it exists. -/
def balanceOf (d : DB) (aid : Nat) : Option ℚ :=
  (d.accounts.find? (fun a => a.id == aid)).map Account.balance

/-- crud.py `get_account` (lines 49-53): query by id; the owner filter is
added only when `user_id` is truthy (Python `if user_id:`, so `None` and
`0` skip the filter). -/
def get_account (d : DB) (account_id : Nat) (user_id : Option Nat) : Option Account :=
  match user_id with
  | some uid =>
    if uid ≠ 0 then
      d.accounts.find? (fun a => a.id == account_id && a.owner_id == uid)
    else
      d.accounts.find? (fun a => a.id == account_id)
  | none => d.accounts.find? (fun a => a.id == account_id)

/-- crud.py `get_transaction` (lines 159-163), same truthiness pattern. -/
def get_transaction (d : DB) (transaction_id : Nat) (user_id : Option Nat) :
    Option Transaction :=
  match user_id with
  | some uid =>
    if uid ≠ 0 then
      d.transactions.find? (fun t => t.id == transaction_id && t.user_id == uid)
    else
      d.transactions.find? (fun t => t.id == transaction_id)
  | none => d.transactions.find? (fun t => t.id == transaction_id)

/-- crud.py `get_category` (lines 89-90): lookup by id only (categories are
global, not owned). -/
def get_category (d : DB) (category_id : Nat) : Option Category :=
  d.categories.find? (fun c => c.id == category_id)

/-- Modelled from the spec: `crud.get_budget` is absent from the source tree
(main.py calls it with `budget_id` and `user_id`); per spec section 4.4
every budget lookup by id is scoped by the owner id in the same query. -/
def get_budget (d : DB) (budget_id : Nat) (user_id : Nat) : Option Budget :=
  d.budgets.find? (fun b => b.id == budget_id && b.user_id == user_id)

/-- Modelled from the spec: `crud.create_budget` is absent from the source
tree (main.py calls it and maps a `None` result to an already-exists
rejection); per spec sections 3 and 4.3 at most one budget may exist per
(user_id, category_id) pair, and a duplicate request signals
"already exists" by yielding no row. -/
def create_budget (d : DB) (budget : BudgetCreate) (user_id : Nat) (newId : Nat) :
    DB × Option Budget :=
  if d.budgets.any (fun b => b.user_id == user_id && b.category_id == budget.category_id) then
    (d, none)
  else
    let b : Budget :=
      { id := newId, amount := budget.amount, period := budget.period
        user_id := user_id, category_id := budget.category_id }
    ({ d with budgets := d.budgets ++ [b] }, some b)

/-- Outcome of an API endpoint: success payload or the HTTP-level failure
class main.py maps each situation to (403, 404, 400, or an unhandled
exception propagating as a 500). -/
inductive ApiOutcome (α : Type) where
  | ok (val : α)
  | forbidden
  | notFound
  | badRequest
  | internalError
deriving DecidableEq

/-- main.py `read_user_account_by_id_api` (lines 130-147): 403 when the path
user id is not the caller, then an owner-scoped lookup, 404 when it finds
nothing. -/
def read_user_account_by_id_api (d : DB) (current_user_id user_id account_id : Nat) :
    ApiOutcome Account :=
  if user_id ≠ current_user_id then ApiOutcome.forbidden
  else
    match get_account d account_id (some user_id) with
    | none => ApiOutcome.notFound
    | some a => ApiOutcome.ok a

/-- main.py `read_transaction_api` (lines 295-312). -/
def read_transaction_api (d : DB) (current_user_id user_id transaction_id : Nat) :
    ApiOutcome Transaction :=
  if user_id ≠ current_user_id then ApiOutcome.forbidden
  else
    match get_transaction d transaction_id (some user_id) with
    | none => ApiOutcome.notFound
    | some t => ApiOutcome.ok t

/-- main.py `read_budget_api` (lines 449-466), on top of the spec-modelled
`get_budget`. -/
def read_budget_api (d : DB) (current_user_id user_id budget_id : Nat) :
    ApiOutcome Budget :=
  if user_id ≠ current_user_id then ApiOutcome.forbidden
  else
    match get_budget d budget_id user_id with
    | none => ApiOutcome.notFound
    | some b => ApiOutcome.ok b

/-- main.py `create_transaction_for_user_api` (lines 269-293): 403 on user
mismatch, 404 when the account is not owned by the caller, 404 when a given
category does not exist, then `crud.create_user_transaction`.  No check
whatsoever is made on `transaction.type`.  An exception out of the crud
layer is unhandled (HTTP 500). -/
def create_transaction_for_user_api (d : DB) (current_user_id user_id : Nat)
    (transaction : TransactionCreate) (newId : Nat) :
    DB × List AdjustCall × ApiOutcome Transaction :=
  if user_id ≠ current_user_id then (d, [], ApiOutcome.forbidden)
  else
    match get_account d transaction.account_id (some user_id) with
    | none => (d, [], ApiOutcome.notFound)
    | some _ =>
      let categoryOk :=
        match transaction.category_id with
        | none => true
        | some cid => (get_category d cid).isSome
      if categoryOk then
        match run_create_user_transaction d transaction user_id newId with
        | (d2, lg, Except.ok t) => (d2, lg, ApiOutcome.ok t)
        | (d2, lg, Except.error _) => (d2, lg, ApiOutcome.internalError)
      else (d, [], ApiOutcome.notFound)

/-- main.py `create_budget_for_user_api` (lines 404-429): 403 on user
mismatch, 404 on missing category, 400 ("Budget already exists for this
category") when `create_budget` yields no row. -/
def create_budget_for_user_api (d : DB) (current_user_id user_id : Nat)
    (budget : BudgetCreate) (newId : Nat) : DB × ApiOutcome Budget :=
  if user_id ≠ current_user_id then (d, ApiOutcome.forbidden)
  else if (get_category d budget.category_id).isSome then
    match create_budget d budget user_id newId with
    | (d2, none) => (d2, ApiOutcome.badRequest)
    | (d2, some b) => (d2, ApiOutcome.ok b)
  else (d, ApiOutcome.notFound)

/-- Number of budget rows stored for a (user, category) pair. -/
def budgetCount (d : DB) (uid cid : Nat) : Nat :=
  (d.budgets.filter (fun b => b.user_id == uid && b.category_id == cid)).length

/-- Row of the `categories` table as the deployed database holds it: the
alembic migration a1b2c3d4e5f6 adds a non-nullable `type` column and drops
the unique index on `name` (the ORM model in models.py lacks this column;
compare `categoryModelColumns`). -/
structure CategoryRow where
  id : Nat
  name : String
  type : String
deriving DecidableEq

/-- Insertion of an element into a list sorted by `le`. -/
def insertLe {α : Type} (le : α → α → Bool) (x : α) : List α → List α
  | [] => [x]
  | y :: ys => if le x y then x :: y :: ys else y :: insertLe le x ys

/-- Insertion sort by `le`; models the SQL `ORDER BY` the query emits. -/
def sortLe {α : Type} (le : α → α → Bool) : List α → List α
  | [] => []
  | x :: xs => insertLe le x (sortLe le xs)

/-- Sort key and direction selection of crud.py `get_transactions`
(lines 188-201): `date` or `amount`, anything else falls back to `id`;
order `asc` ascending, anything else descending. -/
def sortTransactions (l : List Transaction) (sort_by order : String) : List Transaction :=
  if sort_by == "date" then
    if order == "asc" then sortLe (fun a b => decide (a.date ≤ b.date)) l
    else sortLe (fun a b => decide (b.date ≤ a.date)) l
  else if sort_by == "amount" then
    if order == "asc" then sortLe (fun a b => decide (a.amount ≤ b.amount)) l
    else sortLe (fun a b => decide (b.amount ≤ a.amount)) l
  else
    if order == "asc" then sortLe (fun a b => decide (a.id ≤ b.id)) l
    else sortLe (fun a b => decide (b.id ≤ a.id)) l

/-- Start-date filter step of crud.py `get_transactions` (lines 179-180). -/
def q_start (l : List Transaction) (start_date : Option Nat) : List Transaction :=
  match start_date with
  | some sd => l.filter (fun t => sd ≤ t.date)
  | none => l

/-- End-date filter step of crud.py `get_transactions` (lines 181-182). -/
def q_end (l : List Transaction) (end_date : Option Nat) : List Transaction :=
  match end_date with
  | some ed => l.filter (fun t => t.date ≤ ed)
  | none => l

/-- Category filter step (lines 183-184); `if category_id:` means a zero id
is falsy and skips the filter. -/
def q_cat (l : List Transaction) (category_id : Option Nat) : List Transaction :=
  match category_id with
  | some cid => if cid ≠ 0 then l.filter (fun t => t.category_id == some cid) else l
  | none => l

/-- Type filter step (lines 185-186); an empty string is falsy. -/
def q_type (l : List Transaction) (transaction_type : Option String) : List Transaction :=
  match transaction_type with
  | some ty => if ty ≠ "" then l.filter (fun t => t.type == ty) else l
  | none => l

/-- Filter pipeline of crud.py `get_transactions` (lines 177-186): owner
filter always, then the optional start/end/category/type filters. -/
def transactions_query (d : DB) (user_id : Nat) (start_date end_date : Option Nat)
    (category_id : Option Nat) (transaction_type : Option String) : List Transaction :=
  q_type (q_cat (q_end (q_start
    (d.transactions.filter (fun t => t.user_id == user_id))
    start_date) end_date) category_id) transaction_type

/-- Value of the `skip` default in the crud and API list signatures. -/
def default_skip : Nat := 0

/-- Value of the `limit` default in the crud and API list signatures. -/
def default_limit : Nat := 100

/-- crud.py `get_transactions` (lines 165-203): filters, then ordering, then
`offset(skip).limit(limit)`. -/
def get_transactions (d : DB) (user_id : Nat) (start_date end_date : Option Nat)
    (category_id : Option Nat) (transaction_type : Option String)
    (sort_by order : String) (skip limit : Nat) : List Transaction :=
  ((sortTransactions
      (transactions_query d user_id start_date end_date category_id transaction_type)
      sort_by order).drop skip).take limit

/-- crud.py `get_accounts` (lines 55-56): owner filter, then offset/limit. -/
def get_accounts (d : DB) (user_id : Nat) (skip limit : Nat) : List Account :=
  (((d.accounts.filter (fun a => a.owner_id == user_id)).drop skip).take limit)

/-- crud.py `get_categories` (lines 97-107) over the table schema: optional
type filter (matching the type or `"both"`; an empty string is falsy and
skips the filter), then offset/limit.  The `type` attribute follows the
migrated table schema; models.py itself lacks it (see
`categoryModelColumns`). -/
def get_categories (rows : List CategoryRow) (skip limit : Nat)
    (type_filter : Option String) : List CategoryRow :=
  let q := match type_filter with
    | some f =>
      if f ≠ "" then rows.filter (fun c : CategoryRow => c.type == f || c.type == "both")
      else rows
    | none => rows
  (q.drop skip).take limit

/-- Concrete account for the C3 scenario: id 1, balance 10, owner 7. -/
def c3acct : Account := ⟨1, "checking", 10, 7⟩

/-- Concrete transaction for the C3 scenario: 10 income on account 1. -/
def c3txn : Transaction := ⟨1, 10, "income", none, 0, 7, 1, none⟩

/-- Concrete store for the C3 scenario; satisfies the ledger invariant. -/
def c3db : DB := ⟨[c3acct], [c3txn], [], []⟩

/-- Concrete partial update for the C3 scenario: set `type` to the
unvalidated string `"transfer"`. -/
def c3upd : TransactionUpdate := ⟨none, some "transfer", none, none, none, none⟩

/-- Concrete account for the C6 scenario. -/
def c6acct : Account := ⟨1, "checking", 0, 7⟩

/-- Concrete store for the C6 scenario. -/
def c6db : DB := ⟨[c6acct], [], [], []⟩

/-- Concrete create request for the C6 scenario: type `"transfer"`, which no
layer of validation inspects. -/
def c6tc : TransactionCreate := ⟨5, "transfer", none, none, 1, none⟩

/-- Concrete account for the C1 counterexample (direct balance write). -/
def c1xacct : Account := ⟨1, "checking", 5, 7⟩

/-- Concrete transaction backing `c1xacct`: 5 income, so the invariant
holds initially. -/
def c1xtxn : Transaction := ⟨1, 5, "income", none, 0, 7, 1, none⟩

/-- Concrete store for the C1 counterexample; satisfies the invariant. -/
def c1xdb : DB := ⟨[c1xacct], [c1xtxn], [], []⟩

/-- Account update carrying a client-supplied balance of 999. -/
def c1xupd : AccountUpdate := ⟨none, some 999⟩

/-- Concrete account for the second C1 counterexample component. -/
def c1yacct : Account := ⟨1, "checking", 10, 7⟩

/-- Concrete transaction backing `c1yacct`. -/
def c1ytxn : Transaction := ⟨1, 10, "income", none, 0, 7, 1, none⟩

/-- Concrete store for the second C1 counterexample component. -/
def c1ydb : DB := ⟨[c1yacct], [c1ytxn], [], []⟩

/-- Transaction update to an invalid type, to make the update fail
mid-sequence. -/
def c1yupd : TransactionUpdate := ⟨none, some "transfer", none, none, none, none⟩

/-- Accounts of the C1 witness store. -/
def c1wacct1 : Account := ⟨1, "checking", 5, 7⟩

/-- Accounts of the C1 witness store. -/
def c1wacct2 : Account := ⟨2, "savings", -3, 7⟩

/-- Transactions of the C1 witness store. -/
def c1wtxn1 : Transaction := ⟨1, 5, "income", none, 0, 7, 1, none⟩

/-- Transactions of the C1 witness store. -/
def c1wtxn2 : Transaction := ⟨2, 3, "expense", none, 0, 7, 2, none⟩

/-- C1 witness store: two accounts, one transaction each, invariant holds. -/
def c1wdb : DB := ⟨[c1wacct1, c1wacct2], [c1wtxn1, c1wtxn2], [], []⟩

/-- C1 witness update: move transaction 1 to account 2 with amount 4. -/
def c1wupd : TransactionUpdate := ⟨some 4, none, none, none, some 2, none⟩

/-- C2 witness transaction. -/
def c2txn : Transaction := ⟨1, 5, "income", none, 0, 7, 1, none⟩

/-- C2 witness store (its content is irrelevant to the call trace). -/
def c2db : DB := ⟨[], [], [], []⟩

/-- C2 witness update: set the account reference to the value it already
has, nothing else. -/
def c2upd : TransactionUpdate := ⟨none, none, none, none, some 1, none⟩

/-- C4 witness store: one account with balance 3. -/
def c4db : DB := ⟨[⟨1, "checking", 3, 7⟩], [], [], []⟩

/-- C4 witness create request: 5 income on account 1. -/
def c4tc : TransactionCreate := ⟨5, "income", none, none, 1, none⟩

/-- C5 witness account. -/
def c5acct : Account := ⟨1, "checking", 4, 7⟩

/-- C5 witness store. -/
def c5db : DB := ⟨[c5acct], [], [], []⟩

/-- C7 witness: an account owned by user 1. -/
def c7acct : Account := ⟨1, "checking", 0, 1⟩

/-- C7 witness: a transaction owned by user 1. -/
def c7txn : Transaction := ⟨1, 5, "income", none, 0, 1, 1, none⟩

/-- C7 witness: a budget owned by user 1. -/
def c7bud : Budget := ⟨1, 50, "monthly", 1, 5⟩

/-- C7 witness store: every resource is owned by user 1; user 2 is the
caller. -/
def c7db : DB := ⟨[c7acct], [c7txn], [], [c7bud]⟩

/-- C9 witness store: category 5 exists, no budgets yet. -/
def c9db : DB := ⟨[], [], [⟨5, "Food"⟩], []⟩

/-- C9 witness budget request for category 5. -/
def c9bc : BudgetCreate := ⟨100, "monthly", 5⟩

/-- C10 witness store. -/
def c10db : DB :=
  ⟨[⟨1, "checking", 0, 7⟩],
   [⟨1, 5, "income", none, 3, 7, 1, none⟩, ⟨2, 2, "expense", none, 9, 7, 1, none⟩],
   [], []⟩

/-- C10 witness category rows (per the migrated table schema). -/
def c10rows : List CategoryRow :=
  [⟨1, "Rent", "expense"⟩, ⟨2, "Salary", "income"⟩, ⟨3, "Transfer", "both"⟩]

end FinanceApp

namespace FinanceApp

/-- Replacing an element by one with the same id keeps the id list. -/
theorem map_id_updateFirstAccount (as : List Account) (aid : Nat) (a2 : Account)
    (hid : a2.id = aid) :
    (updateFirstAccount as aid a2).map Account.id = as.map Account.id := by
  induction as with
  | nil => rfl
  | cons a rest ih =>
    by_cases h : a.id = aid
    · simp [updateFirstAccount, h, hid]
    · simp [updateFirstAccount, h, ih]

/-- Replacing a present first match makes `find?` for that id return the
replacement. -/
theorem find?_updateFirstAccount_self (as : List Account) (aid : Nat) (a2 : Account)
    (hid : a2.id = aid) (h : (as.find? (fun a => a.id == aid)).isSome) :
    (updateFirstAccount as aid a2).find? (fun a => a.id == aid) = some a2 := by
  induction as with
  | nil => simp [List.find?] at h
  | cons a rest ih =>
    by_cases hh : a.id = aid
    · have hba : (a2.id == aid) = true := by simp [hid]
      simp [updateFirstAccount, hh, List.find?_cons, hba]
    · have hba : (a.id == aid) = false := by simp [hh]
      have h2 : (rest.find? (fun a => a.id == aid)).isSome := by
        rw [List.find?_cons, hba] at h
        exact h
      simp [updateFirstAccount, hh, List.find?_cons, hba, ih h2]

/-- Replacing the first match of one id leaves `find?` for any other id
unchanged, provided the replacement keeps the replaced id. -/
theorem find?_updateFirstAccount_ne (as : List Account) (aid : Nat) (a2 : Account)
    (hid : a2.id = aid) (j : Nat) (hj : j ≠ aid) :
    (updateFirstAccount as aid a2).find? (fun a => a.id == j)
      = as.find? (fun a => a.id == j) := by
  induction as with
  | nil => rfl
  | cons a rest ih =>
    by_cases hh : a.id = aid
    · have h1 : (a2.id == j) = false := by
        simp [hid]; exact fun e => hj e.symm
      have h2 : (a.id == j) = false := by
        simp [hh]; exact fun e => hj e.symm
      simp only [updateFirstAccount, if_pos hh, List.find?_cons, h1, h2]
    · by_cases hj2 : a.id = j
      · have h2 : (a.id == j) = true := by simp [hj2]
        simp only [updateFirstAccount, if_neg hh, List.find?_cons, h2]
      · have h2 : (a.id == j) = false := by simp [hj2]
        simp only [updateFirstAccount, if_neg hh, List.find?_cons, h2, ih]

/-- When no element matches, the replacement is the identity. -/
theorem updateFirstAccount_of_find?_none (as : List Account) (aid : Nat) (a2 : Account)
    (h : as.find? (fun a => a.id == aid) = none) :
    updateFirstAccount as aid a2 = as := by
  induction as with
  | nil => rfl
  | cons a rest ih =>
    rw [List.find?_eq_none] at h
    have ha : ¬ a.id = aid := by
      have := h a (List.mem_cons_self a rest)
      simpa using this
    have hrest : rest.find? (fun a => a.id == aid) = none := by
      rw [List.find?_eq_none]
      exact fun x hx => h x (List.mem_cons_of_mem a hx)
    simp [updateFirstAccount, ha, ih hrest]

/-- Elimination principle for membership in a first-match replacement, under
distinct ids: every member either was already present with a different id,
or is the replacement. -/
theorem forall_mem_updateFirstAccount (as : List Account) (aid : Nat) (a2 : Account)
    (P : Account → Prop) (hnd : (as.map Account.id).Nodup)
    (h1 : ∀ b ∈ as, b.id ≠ aid → P b) (h2 : P a2) :
    ∀ b ∈ updateFirstAccount as aid a2, P b := by
  induction as with
  | nil => intro b hb; simp [updateFirstAccount] at hb
  | cons a rest ih =>
    simp only [List.map_cons, List.nodup_cons] at hnd
    by_cases hh : a.id = aid
    · intro b hb
      simp only [updateFirstAccount, if_pos hh] at hb
      rcases List.mem_cons.mp hb with h | h
      · exact h ▸ h2
      · have hbne : b.id ≠ aid := by
          intro e
          exact hnd.1 (by rw [hh, ← e]; exact List.mem_map_of_mem Account.id h)
        exact h1 b (List.mem_cons_of_mem a h) hbne
    · intro b hb
      simp only [updateFirstAccount, if_neg hh] at hb
      rcases List.mem_cons.mp hb with h | h
      · exact h ▸ h1 a (List.mem_cons_self a rest) hh
      · exact ih hnd.2 (fun x hx hxa => h1 x (List.mem_cons_of_mem a hx) hxa) b h

/-- Unfolding of the net sum over a cons cell. -/
theorem acctSum_cons (t : Transaction) (ts : List Transaction) (aid : Nat) :
    acctSum (t :: ts) aid = contribTo aid t + acctSum ts aid := by
  simp [acctSum]

/-- Net-sum effect of appending one transaction. -/
theorem acctSum_append (ts : List Transaction) (t : Transaction) (aid : Nat) :
    acctSum (ts ++ [t]) aid = acctSum ts aid + contribTo aid t := by
  simp [acctSum]

/-- Contribution of a transaction on a foreign account is zero. -/
theorem contribTo_of_ne (aid : Nat) (t : Transaction) (h : t.account_id ≠ aid) :
    contribTo aid t = 0 := by
  simp [contribTo, h]

/-- Contribution of a transaction on its own account is its signed amount. -/
theorem contribTo_self (aid : Nat) (t : Transaction) (h : t.account_id = aid) :
    contribTo aid t = signedAmount t := by
  simp [contribTo, h]

/-- Net-sum effect of replacing the unique row with a given id. -/
theorem acctSum_updateFirstTransaction (ts : List Transaction) (t0 t2 : Transaction)
    (aid : Nat) (hnd : (ts.map Transaction.id).Nodup) (hmem : t0 ∈ ts)
    (hid : t2.id = t0.id) :
    acctSum (updateFirstTransaction ts t0.id t2) aid
      = acctSum ts aid - contribTo aid t0 + contribTo aid t2 := by
  induction ts with
  | nil => simp at hmem
  | cons t rest ih =>
    simp only [List.map_cons, List.nodup_cons] at hnd
    by_cases hh : t.id = t0.id
    · have ht : t = t0 := by
        rcases List.mem_cons.mp hmem with h | h
        · exact h.symm
        · exfalso; apply hnd.1; rw [hh]; exact List.mem_map_of_mem Transaction.id h
      subst ht
      rw [show updateFirstTransaction (t :: rest) t.id t2 = t2 :: rest from by
        simp [updateFirstTransaction]]
      rw [acctSum_cons, acctSum_cons]
      ring
    · have hmem2 : t0 ∈ rest := by
        rcases List.mem_cons.mp hmem with h | h
        · exact absurd (h ▸ rfl) hh
        · exact h
      simp only [updateFirstTransaction, if_neg hh, acctSum_cons]
      rw [ih hnd.2 hmem2]
      ring

/-- Filtering by a fresh id is the identity. -/
theorem filter_id_ne_eq_self (ts : List Transaction) (n : Nat)
    (h : ∀ t ∈ ts, t.id ≠ n) :
    ts.filter (fun t => t.id != n) = ts := by
  induction ts with
  | nil => rfl
  | cons t rest ih =>
    have ht : (t.id != n) = true := by
      simpa using h t (List.mem_cons_self t rest)
    simp [List.filter_cons, ht,
      ih (fun x hx => h x (List.mem_cons_of_mem t hx))]

/-- Net-sum effect of deleting the unique row with a given id. -/
theorem acctSum_filter_ne (ts : List Transaction) (t0 : Transaction) (aid : Nat)
    (hnd : (ts.map Transaction.id).Nodup) (hmem : t0 ∈ ts) :
    acctSum (ts.filter (fun t => t.id != t0.id)) aid
      = acctSum ts aid - contribTo aid t0 := by
  induction ts with
  | nil => simp at hmem
  | cons t rest ih =>
    simp only [List.map_cons, List.nodup_cons] at hnd
    by_cases hh : t.id = t0.id
    · have ht : t = t0 := by
        rcases List.mem_cons.mp hmem with h | h
        · exact h.symm
        · exfalso; apply hnd.1; rw [hh]; exact List.mem_map_of_mem Transaction.id h
      subst ht
      have hrest : ∀ x ∈ rest, x.id ≠ t.id := by
        intro x hx e
        exact hnd.1 (by rw [← e]; exact List.mem_map_of_mem Transaction.id hx)
      have hfilter : rest.filter (fun x => x.id != t.id) = rest :=
        filter_id_ne_eq_self rest t.id hrest
      have hbt : (t.id != t.id) = false := by simp
      rw [show List.filter (fun x => x.id != t.id) (t :: rest) = rest from by
        simp [List.filter_cons, hbt, hfilter]]
      rw [acctSum_cons]
      ring
    · have hmem2 : t0 ∈ rest := by
        rcases List.mem_cons.mp hmem with h | h
        · exact absurd (h ▸ rfl) hh
        · exact h
      have ht : (t.id != t0.id) = true := by simpa using hh
      rw [show List.filter (fun x => x.id != t0.id) (t :: rest)
            = t :: List.filter (fun x => x.id != t0.id) rest from by
        simp [List.filter_cons, ht]]
      rw [acctSum_cons, acctSum_cons, ih hnd.2 hmem2]
      ring

/-- Unfolding of the engine when the account is missing: only the call is
logged; nothing is committed, `None` is returned, whatever the type. -/
theorem adjust_none (s : Sess) (aid : Nat) (amt : ℚ) (ty : String)
    (hfind : s.pending.accounts.find? (fun a => a.id == aid) = none) :
    adjust_account_balance s aid amt ty
      = ({ s with log := s.log ++ [AdjustCall.mk aid amt ty] }, Except.ok none) := by
  simp [adjust_account_balance, hfind]

/-- Unfolding of the engine on `income`: the found account's balance grows by
the amount and the result is committed. -/
theorem adjust_found_income (s : Sess) (aid : Nat) (amt : ℚ) (a0 : Account)
    (hfind : s.pending.accounts.find? (fun a => a.id == aid) = some a0) :
    adjust_account_balance s aid amt "income"
      = (Sess.mk
          ({ s.pending with accounts := updateFirstAccount s.pending.accounts aid ({ a0 with balance := a0.balance + amt }) })
          ({ s.pending with accounts := updateFirstAccount s.pending.accounts aid ({ a0 with balance := a0.balance + amt }) })
          (s.log ++ [AdjustCall.mk aid amt "income"]),
        Except.ok (some ({ a0 with balance := a0.balance + amt }))) := by
  simp [adjust_account_balance, hfind, commit]

/-- Unfolding of the engine on `expense`: the found account's balance shrinks
by the amount and the result is committed. -/
theorem adjust_found_expense (s : Sess) (aid : Nat) (amt : ℚ) (a0 : Account)
    (hfind : s.pending.accounts.find? (fun a => a.id == aid) = some a0) :
    adjust_account_balance s aid amt "expense"
      = (Sess.mk
          ({ s.pending with accounts := updateFirstAccount s.pending.accounts aid ({ a0 with balance := a0.balance - amt }) })
          ({ s.pending with accounts := updateFirstAccount s.pending.accounts aid ({ a0 with balance := a0.balance - amt }) })
          (s.log ++ [AdjustCall.mk aid amt "expense"]),
        Except.ok (some ({ a0 with balance := a0.balance - amt }))) := by
  simp [adjust_account_balance, hfind, commit]

/-- Unfolding of the engine on an unrecognized type with an existing
account: the `ValueError` branch; nothing is committed. -/
theorem adjust_found_invalid (s : Sess) (aid : Nat) (amt : ℚ) (ty : String)
    (a0 : Account) (h1 : ty ≠ "income") (h2 : ty ≠ "expense")
    (hfind : s.pending.accounts.find? (fun a => a.id == aid) = some a0) :
    adjust_account_balance s aid amt ty
      = ({ s with log := s.log ++ [AdjustCall.mk aid amt ty] },
        Except.error PyError.invalidTransactionType) := by
  simp [adjust_account_balance, hfind, h1, h2]

/-- Reversal call (opposite type, same amount): its effect on a found
account is subtracting the signed amount, whatever the original type
string. -/
theorem adjust_reverse_found (s : Sess) (t0 : Transaction) (b0 : Account)
    (hfind : s.pending.accounts.find? (fun a => a.id == t0.account_id) = some b0) :
    adjust_account_balance s t0.account_id t0.amount
        (if t0.type == "income" then "expense" else "income")
      = (Sess.mk
          ({ s.pending with accounts := updateFirstAccount s.pending.accounts t0.account_id ({ b0 with balance := b0.balance - signedAmount t0 }) })
          ({ s.pending with accounts := updateFirstAccount s.pending.accounts t0.account_id ({ b0 with balance := b0.balance - signedAmount t0 }) })
          (s.log ++ [AdjustCall.mk t0.account_id t0.amount (if t0.type == "income" then "expense" else "income")]),
        Except.ok (some ({ b0 with balance := b0.balance - signedAmount t0 }))) := by
  cases h : (t0.type == "income") with
  | true =>
    rw [if_pos rfl]
    rw [adjust_found_expense s t0.account_id t0.amount b0 hfind]
    simp [signedAmount, h]
  | false =>
    rw [if_neg (by simp)]
    rw [adjust_found_income s t0.account_id t0.amount b0 hfind]
    simp [signedAmount, h, sub_neg_eq_add]

/-- Forward call with a valid type: its effect on a found account is adding
the signed amount. -/
theorem adjust_apply_found (s : Sess) (t1 : Transaction) (a0 : Account)
    (hv : t1.type = "income" ∨ t1.type = "expense")
    (hfind : s.pending.accounts.find? (fun a => a.id == t1.account_id) = some a0) :
    adjust_account_balance s t1.account_id t1.amount t1.type
      = (Sess.mk
          ({ s.pending with accounts := updateFirstAccount s.pending.accounts t1.account_id ({ a0 with balance := a0.balance + signedAmount t1 }) })
          ({ s.pending with accounts := updateFirstAccount s.pending.accounts t1.account_id ({ a0 with balance := a0.balance + signedAmount t1 }) })
          (s.log ++ [AdjustCall.mk t1.account_id t1.amount t1.type]),
        Except.ok (some ({ a0 with balance := a0.balance + signedAmount t1 }))) := by
  rcases hv with h | h
  · rw [h, adjust_found_income s t1.account_id t1.amount a0 hfind]
    simp [signedAmount, h]
  · rw [h, adjust_found_expense s t1.account_id t1.amount a0 hfind]
    simp [signedAmount, h, sub_eq_add_neg]

/-- The engine always logs exactly its own call, first thing. -/
theorem adjust_log (s : Sess) (aid : Nat) (amt : ℚ) (ty : String) :
    (adjust_account_balance s aid amt ty).1.log
      = s.log ++ [AdjustCall.mk aid amt ty] := by
  cases hfind : s.pending.accounts.find? (fun a => a.id == aid) with
  | none => simp [adjust_account_balance, hfind]
  | some a0 =>
    cases h1 : (ty == "income") with
    | true => simp [adjust_account_balance, hfind, h1, commit]
    | false =>
      cases h2 : (ty == "expense") with
      | true => simp [adjust_account_balance, hfind, h1, h2, commit]
      | false => simp [adjust_account_balance, hfind, h1, h2]

/-- Reversal calls (the type is one of the two valid strings by
construction) never raise. -/
theorem adjust_reverse_no_error (s : Sess) (aid : Nat) (amt : ℚ) (ty : String) :
    ∃ v, (adjust_account_balance s aid amt
      (if ty == "income" then "expense" else "income")).2 = Except.ok v := by
  cases hfind : s.pending.accounts.find? (fun a => a.id == aid) with
  | none => exact ⟨none, by rw [adjust_none _ _ _ _ hfind]⟩
  | some a0 =>
    cases h : (ty == "income") with
    | true =>
      rw [if_pos rfl]
      exact ⟨_, by rw [adjust_found_expense s aid amt a0 hfind]⟩
    | false =>
      rw [if_neg (by simp)]
      exact ⟨_, by rw [adjust_found_income s aid amt a0 hfind]⟩

/-- Replacing the first match by the found element itself changes nothing. -/
theorem updateFirstAccount_found_self (as : List Account) (aid : Nat) (a0 : Account)
    (hfind : as.find? (fun a => a.id == aid) = some a0) :
    updateFirstAccount as aid a0 = as := by
  induction as with
  | nil => simp [List.find?] at hfind
  | cons a rest ih =>
    by_cases hh : a.id = aid
    · have hba : (a.id == aid) = true := by simp [hh]
      rw [List.find?_cons, hba] at hfind
      have ha : a = a0 := Option.some.inj hfind
      subst ha
      simp [updateFirstAccount, hh]
    · have hba : (a.id == aid) = false := by simp [hh]
      rw [List.find?_cons, hba] at hfind
      simp [updateFirstAccount, hh, ih hfind]

/-- Two successive first-match replacements collapse to the second. -/
theorem updateFirstAccount_twice (as : List Account) (aid : Nat) (a2 a3 : Account)
    (hid : a2.id = aid) :
    updateFirstAccount (updateFirstAccount as aid a2) aid a3
      = updateFirstAccount as aid a3 := by
  induction as with
  | nil => rfl
  | cons a rest ih =>
    by_cases hh : a.id = aid
    · simp [updateFirstAccount, hh, hid]
    · simp [updateFirstAccount, hh, ih]

/-- C5: contract of the Balance Adjustment Engine.  Missing account: no-op
on the store, `None` signalled back, whatever the type string.  Existing
account: `income` adds the amount to exactly that account's balance,
`expense` subtracts it, with all other accounts and the transaction table
untouched; any other type string is an invalid-argument failure
(`ValueError`) that leaves the committed store unchanged. -/
theorem c5_adjust_engine_contract (d : DB) (aid : Nat) (amt : ℚ) (ty : String) :
    (d.accounts.find? (fun a => a.id == aid) = none →
      (adjust_account_balance (initSess d) aid amt ty).1.persisted = d
      ∧ (adjust_account_balance (initSess d) aid amt ty).2 = Except.ok none)
    ∧ (∀ a0, d.accounts.find? (fun a => a.id == aid) = some a0 →
        (ty = "income" →
          (adjust_account_balance (initSess d) aid amt ty).2
            = Except.ok (some ({ a0 with balance := a0.balance + amt }))
          ∧ balanceOf (adjust_account_balance (initSess d) aid amt ty).1.persisted aid
            = some (a0.balance + amt)
          ∧ (∀ j, j ≠ aid →
              balanceOf (adjust_account_balance (initSess d) aid amt ty).1.persisted j
                = balanceOf d j)
          ∧ (adjust_account_balance (initSess d) aid amt ty).1.persisted.transactions
            = d.transactions)
        ∧ (ty = "expense" →
          (adjust_account_balance (initSess d) aid amt ty).2
            = Except.ok (some ({ a0 with balance := a0.balance - amt }))
          ∧ balanceOf (adjust_account_balance (initSess d) aid amt ty).1.persisted aid
            = some (a0.balance - amt)
          ∧ (∀ j, j ≠ aid →
              balanceOf (adjust_account_balance (initSess d) aid amt ty).1.persisted j
                = balanceOf d j)
          ∧ (adjust_account_balance (initSess d) aid amt ty).1.persisted.transactions
            = d.transactions)
        ∧ (ty ≠ "income" → ty ≠ "expense" →
          (adjust_account_balance (initSess d) aid amt ty).2
            = Except.error PyError.invalidTransactionType
          ∧ (adjust_account_balance (initSess d) aid amt ty).1.persisted = d)) := by
  constructor
  · intro hfind
    rw [adjust_none (initSess d) aid amt ty hfind]
    exact ⟨rfl, rfl⟩
  · intro a0 hfind
    have ha0 : a0.id = aid := by simpa using List.find?_some hfind
    have hsome : ((d.accounts.find? (fun a => a.id == aid))).isSome := by
      rw [hfind]; rfl
    refine ⟨?_, ?_, ?_⟩
    · intro hty
      subst hty
      rw [adjust_found_income (initSess d) aid amt a0 hfind]
      refine ⟨rfl, ?_, ?_, rfl⟩
      · show ((updateFirstAccount d.accounts aid
            ({ a0 with balance := a0.balance + amt })).find?
              (fun a => a.id == aid)).map Account.balance = _
        rw [find?_updateFirstAccount_self d.accounts aid
          ({ a0 with balance := a0.balance + amt }) ha0 hsome]
        rfl
      · intro j hj
        show ((updateFirstAccount d.accounts aid
            ({ a0 with balance := a0.balance + amt })).find?
              (fun a => a.id == j)).map Account.balance = _
        rw [find?_updateFirstAccount_ne d.accounts aid
          ({ a0 with balance := a0.balance + amt }) ha0 j hj]
        rfl
    · intro hty
      subst hty
      rw [adjust_found_expense (initSess d) aid amt a0 hfind]
      refine ⟨rfl, ?_, ?_, rfl⟩
      · show ((updateFirstAccount d.accounts aid
            ({ a0 with balance := a0.balance - amt })).find?
              (fun a => a.id == aid)).map Account.balance = _
        rw [find?_updateFirstAccount_self d.accounts aid
          ({ a0 with balance := a0.balance - amt }) ha0 hsome]
        rfl
      · intro j hj
        show ((updateFirstAccount d.accounts aid
            ({ a0 with balance := a0.balance - amt })).find?
              (fun a => a.id == j)).map Account.balance = _
        rw [find?_updateFirstAccount_ne d.accounts aid
          ({ a0 with balance := a0.balance - amt }) ha0 j hj]
        rfl
    · intro h1 h2
      rw [adjust_found_invalid (initSess d) aid amt ty a0 h1 h2 hfind]
      exact ⟨rfl, rfl⟩

/-- Applying one valid-type delta and then its reversal restores the
committed store exactly (over exact arithmetic). -/
theorem adjust_roundtrip (d : DB) (aid : Nat) (amt : ℚ) (ty rty : String)
    (h : (ty = "income" ∧ rty = "expense") ∨ (ty = "expense" ∧ rty = "income")) :
    (adjust_account_balance
      (adjust_account_balance (initSess d) aid amt ty).1 aid amt rty).1.persisted = d := by
  have hgen : ∀ (sgn : Bool),
      (adjust_account_balance
        (adjust_account_balance (initSess d) aid amt (if sgn then "income" else "expense")).1
        aid amt (if sgn then "expense" else "income")).1.persisted = d := by
    intro sgn
    cases hf : d.accounts.find? (fun a => a.id == aid) with
    | none =>
      cases sgn with
      | true =>
        rw [if_pos rfl, if_pos rfl]
        rw [adjust_none (initSess d) aid amt "income" hf]
        rw [adjust_none ({ initSess d with
          log := (initSess d).log ++ [AdjustCall.mk aid amt "income"] }) aid amt "expense" hf]
        rfl
      | false =>
        rw [if_neg (by simp), if_neg (by simp)]
        rw [adjust_none (initSess d) aid amt "expense" hf]
        rw [adjust_none ({ initSess d with
          log := (initSess d).log ++ [AdjustCall.mk aid amt "expense"] }) aid amt "income" hf]
        rfl
    | some a0 =>
      have ha0 : a0.id = aid := by simpa using List.find?_some hf
      have hsome : (d.accounts.find? (fun a => a.id == aid)).isSome := by rw [hf]; rfl
      cases sgn with
      | true =>
        rw [if_pos rfl, if_pos rfl]
        rw [adjust_found_income (initSess d) aid amt a0 hf]
        have hf2 : (updateFirstAccount d.accounts aid
            ({ a0 with balance := a0.balance + amt })).find? (fun a => a.id == aid)
            = some ({ a0 with balance := a0.balance + amt }) :=
          find?_updateFirstAccount_self d.accounts aid
            ({ a0 with balance := a0.balance + amt }) ha0 hsome
        rw [adjust_found_expense _ aid amt ({ a0 with balance := a0.balance + amt }) hf2]
        show ({ d with accounts := updateFirstAccount (updateFirstAccount d.accounts aid ({ a0 with balance := a0.balance + amt })) aid ({ a0 with balance := a0.balance + amt - amt }) } : DB) = d
        rw [updateFirstAccount_twice d.accounts aid ({ a0 with balance := a0.balance + amt })
          ({ a0 with balance := a0.balance + amt - amt }) ha0]
        have e2 : ({ a0 with balance := a0.balance + amt - amt } : Account) = a0 := by
          cases a0
          simp
        rw [e2, updateFirstAccount_found_self d.accounts aid a0 hf]
      | false =>
        rw [if_neg (by simp), if_neg (by simp)]
        rw [adjust_found_expense (initSess d) aid amt a0 hf]
        have hf2 : (updateFirstAccount d.accounts aid
            ({ a0 with balance := a0.balance - amt })).find? (fun a => a.id == aid)
            = some ({ a0 with balance := a0.balance - amt }) :=
          find?_updateFirstAccount_self d.accounts aid
            ({ a0 with balance := a0.balance - amt }) ha0 hsome
        rw [adjust_found_income _ aid amt ({ a0 with balance := a0.balance - amt }) hf2]
        show ({ d with accounts := updateFirstAccount (updateFirstAccount d.accounts aid ({ a0 with balance := a0.balance - amt })) aid ({ a0 with balance := a0.balance - amt + amt }) } : DB) = d
        rw [updateFirstAccount_twice d.accounts aid ({ a0 with balance := a0.balance - amt })
          ({ a0 with balance := a0.balance - amt + amt }) ha0]
        have e2 : ({ a0 with balance := a0.balance - amt + amt } : Account) = a0 := by
          cases a0
          simp
        rw [e2, updateFirstAccount_found_self d.accounts aid a0 hf]
  rcases h with ⟨h1, h2⟩ | ⟨h1, h2⟩
  · subst h1; subst h2; exact hgen true
  · subst h1; subst h2; exact hgen false

/-- Creating an income transaction and then deleting it restores the whole
committed store exactly, provided the assigned row id was fresh. -/
theorem create_delete_roundtrip (d : DB) (tc : TransactionCreate) (uid newId : Nat)
    (d1 : DB) (lg : List AdjustCall) (t : Transaction)
    (hty : tc.type = "income")
    (hfresh : ∀ t2 ∈ d.transactions, t2.id ≠ newId)
    (hrun : run_create_user_transaction d tc uid newId = (d1, lg, Except.ok t)) :
    (run_delete_transaction d1 t).1 = d := by
  cases hf : d.accounts.find? (fun a => a.id == tc.account_id) with
  | none =>
    have hcreate : run_create_user_transaction d tc uid newId
        = ({ d with transactions := d.transactions ++ [Transaction.mk newId tc.amount tc.type tc.description (tc.date.getD 0) uid tc.account_id tc.category_id] },
           [AdjustCall.mk tc.account_id tc.amount tc.type],
           Except.ok (Transaction.mk newId tc.amount tc.type tc.description (tc.date.getD 0) uid tc.account_id tc.category_id)) := by
      simp [run_create_user_transaction, create_user_transaction, adjust_account_balance,
        initSess, commit, hf]
    rw [hcreate] at hrun
    simp only [Prod.mk.injEq, Except.ok.injEq] at hrun
    obtain ⟨hd1, hlg, ht⟩ := hrun
    subst hd1
    subst ht
    simp [run_delete_transaction, delete_transaction, adjust_account_balance,
      initSess, commit, hty, hf, List.filter_append,
      filter_id_ne_eq_self d.transactions newId hfresh]
  | some a0 =>
    have ha0 : a0.id = tc.account_id := by simpa using List.find?_some hf
    have hsome : (d.accounts.find? (fun a => a.id == tc.account_id)).isSome := by
      rw [hf]; rfl
    have hcreate : run_create_user_transaction d tc uid newId
        = ({ d with
              accounts := updateFirstAccount d.accounts tc.account_id
                ({ a0 with balance := a0.balance + tc.amount }),
              transactions := d.transactions ++ [Transaction.mk newId tc.amount tc.type tc.description (tc.date.getD 0) uid tc.account_id tc.category_id] },
           [AdjustCall.mk tc.account_id tc.amount tc.type],
           Except.ok (Transaction.mk newId tc.amount tc.type tc.description (tc.date.getD 0) uid tc.account_id tc.category_id)) := by
      simp [run_create_user_transaction, create_user_transaction, adjust_account_balance,
        initSess, commit, hf, hty]
    rw [hcreate] at hrun
    simp only [Prod.mk.injEq, Except.ok.injEq] at hrun
    obtain ⟨hd1, hlg, ht⟩ := hrun
    subst hd1
    subst ht
    have hf2 : (updateFirstAccount d.accounts tc.account_id
        ({ a0 with balance := a0.balance + tc.amount })).find?
          (fun a => a.id == tc.account_id)
        = some ({ a0 with balance := a0.balance + tc.amount }) :=
      find?_updateFirstAccount_self d.accounts tc.account_id
        ({ a0 with balance := a0.balance + tc.amount }) ha0 hsome
    have e3 : (Account.mk a0.id a0.name a0.balance a0.owner_id) = a0 := rfl
    have htwice2 := updateFirstAccount_twice d.accounts tc.account_id
      ({ a0 with balance := a0.balance + tc.amount }) a0 ha0
    have hself : updateFirstAccount d.accounts tc.account_id a0 = d.accounts :=
      updateFirstAccount_found_self d.accounts tc.account_id a0 hf
    simp [run_delete_transaction, delete_transaction, adjust_account_balance,
      initSess, commit, hty, hf2, e3, htwice2, hself, List.filter_append,
      filter_id_ne_eq_self d.transactions newId hfresh]

/-- C4: applying a delta and then its reversal (opposite type, same amount)
returns the balance — indeed the whole committed store — exactly to its
prior state; in particular an income-transaction create followed by its
delete restores the store, hence the account balance, exactly (over the
exact-rational model of amounts). -/
theorem c4_reversal_roundtrip :
    (∀ (d : DB) (aid : Nat) (amt : ℚ),
      (adjust_account_balance
        (adjust_account_balance (initSess d) aid amt "income").1 aid amt "expense").1.persisted = d
      ∧ (adjust_account_balance
        (adjust_account_balance (initSess d) aid amt "expense").1 aid amt "income").1.persisted = d)
    ∧ (∀ (d : DB) (tc : TransactionCreate) (uid newId : Nat) (d1 : DB)
        (lg : List AdjustCall) (t : Transaction),
        tc.type = "income" →
        (∀ t2 ∈ d.transactions, t2.id ≠ newId) →
        run_create_user_transaction d tc uid newId = (d1, lg, Except.ok t) →
        (run_delete_transaction d1 t).1 = d) := by
  constructor
  · intro d aid amt
    exact ⟨adjust_roundtrip d aid amt "income" "expense" (Or.inl ⟨rfl, rfl⟩),
      adjust_roundtrip d aid amt "expense" "income" (Or.inr ⟨rfl, rfl⟩)⟩
  · intro d tc uid newId d1 lg t hty hfresh hrun
    exact create_delete_roundtrip d tc uid newId d1 lg t hty hfresh hrun

/-- Adjustment-call trace of `update_transaction`: two calls (reverse old,
apply new) when the account moved or when amount/type changed, none
otherwise. -/
theorem update_transaction_log (s : Sess) (t0 : Transaction) (u : TransactionUpdate) :
    (update_transaction s t0 u).1.log =
      if t0.account_id ≠ (applyTransactionUpdate t0 u).account_id then
        s.log ++ [AdjustCall.mk t0.account_id t0.amount
            (if t0.type == "income" then "expense" else "income"),
          AdjustCall.mk (applyTransactionUpdate t0 u).account_id
            (applyTransactionUpdate t0 u).amount (applyTransactionUpdate t0 u).type]
      else if t0.amount ≠ (applyTransactionUpdate t0 u).amount
          ∨ t0.type ≠ (applyTransactionUpdate t0 u).type then
        s.log ++ [AdjustCall.mk t0.account_id t0.amount
            (if t0.type == "income" then "expense" else "income"),
          AdjustCall.mk (applyTransactionUpdate t0 u).account_id
            (applyTransactionUpdate t0 u).amount (applyTransactionUpdate t0 u).type]
      else s.log := by
  simp only [update_transaction]
  by_cases hacc : t0.account_id ≠ (applyTransactionUpdate t0 u).account_id
  · rw [if_pos hacc, if_pos hacc]
    rcases hadj1 : adjust_account_balance ({ s with pending := { s.pending with transactions := updateFirstTransaction s.pending.transactions t0.id (applyTransactionUpdate t0 u) } }) t0.account_id t0.amount (if t0.type == "income" then "expense" else "income") with ⟨s2, r2⟩
    have hl1 : s2.log = s.log ++ [AdjustCall.mk t0.account_id t0.amount
        (if t0.type == "income" then "expense" else "income")] := by
      have h := adjust_log ({ s with pending := { s.pending with transactions := updateFirstTransaction s.pending.transactions t0.id (applyTransactionUpdate t0 u) } }) t0.account_id t0.amount (if t0.type == "income" then "expense" else "income")
      rw [hadj1] at h
      exact h
    obtain ⟨v, hv⟩ := adjust_reverse_no_error ({ s with pending := { s.pending with transactions := updateFirstTransaction s.pending.transactions t0.id (applyTransactionUpdate t0 u) } }) t0.account_id t0.amount t0.type
    rw [hadj1] at hv
    cases r2 with
    | error e => exact absurd hv (by simp)
    | ok v2 =>
      dsimp only
      rcases hadj2 : adjust_account_balance s2 (applyTransactionUpdate t0 u).account_id
          (applyTransactionUpdate t0 u).amount (applyTransactionUpdate t0 u).type
        with ⟨s3, r3⟩
      have hl2 : s3.log = s2.log ++ [AdjustCall.mk (applyTransactionUpdate t0 u).account_id
          (applyTransactionUpdate t0 u).amount (applyTransactionUpdate t0 u).type] := by
        have h := adjust_log s2 (applyTransactionUpdate t0 u).account_id
          (applyTransactionUpdate t0 u).amount (applyTransactionUpdate t0 u).type
        rw [hadj2] at h
        exact h
      cases r3 with
      | error e => simp [hl2, hl1]
      | ok v3 => simp [commit, hl2, hl1]
  · rw [if_neg hacc, if_neg hacc]
    by_cases hch : t0.amount ≠ (applyTransactionUpdate t0 u).amount
        ∨ t0.type ≠ (applyTransactionUpdate t0 u).type
    · rw [if_pos hch, if_pos hch]
      rcases hadj1 : adjust_account_balance ({ s with pending := { s.pending with transactions := updateFirstTransaction s.pending.transactions t0.id (applyTransactionUpdate t0 u) } }) t0.account_id t0.amount (if t0.type == "income" then "expense" else "income") with ⟨s2, r2⟩
      have hl1 : s2.log = s.log ++ [AdjustCall.mk t0.account_id t0.amount
          (if t0.type == "income" then "expense" else "income")] := by
        have h := adjust_log ({ s with pending := { s.pending with transactions := updateFirstTransaction s.pending.transactions t0.id (applyTransactionUpdate t0 u) } }) t0.account_id t0.amount (if t0.type == "income" then "expense" else "income")
        rw [hadj1] at h
        exact h
      obtain ⟨v, hv⟩ := adjust_reverse_no_error ({ s with pending := { s.pending with transactions := updateFirstTransaction s.pending.transactions t0.id (applyTransactionUpdate t0 u) } }) t0.account_id t0.amount t0.type
      rw [hadj1] at hv
      cases r2 with
      | error e => exact absurd hv (by simp)
      | ok v2 =>
        dsimp only
        rcases hadj2 : adjust_account_balance s2 (applyTransactionUpdate t0 u).account_id
            (applyTransactionUpdate t0 u).amount (applyTransactionUpdate t0 u).type
          with ⟨s3, r3⟩
        have hl2 : s3.log = s2.log ++ [AdjustCall.mk (applyTransactionUpdate t0 u).account_id
            (applyTransactionUpdate t0 u).amount (applyTransactionUpdate t0 u).type] := by
          have h := adjust_log s2 (applyTransactionUpdate t0 u).account_id
            (applyTransactionUpdate t0 u).amount (applyTransactionUpdate t0 u).type
          rw [hadj2] at h
          exact h
        cases r3 with
        | error e => simp [hl2, hl1]
        | ok v3 => simp [commit, hl2, hl1]
    · rw [if_neg hch, if_neg hch]
      rfl

/-- C2: reconciliation rule of `update_transaction`, observed through the
engine-call trace.  If the account reference changed, the engine is asked to
reverse the old delta (old amount, opposite of old type) against the old
account and apply the new delta against the new account; if only amount or
type changed, both calls target the same (old) account; if nothing
balance-relevant changed no engine call is made; and an update that sets
`account_id` to the value it already had (and changes neither amount nor
type) takes the account-unchanged branch, issuing no calls at all. -/
theorem c2_update_reconciliation (d : DB) (t0 : Transaction) (u : TransactionUpdate) :
    (t0.account_id ≠ (applyTransactionUpdate t0 u).account_id →
      (run_update_transaction d t0 u).2.1
        = [AdjustCall.mk t0.account_id t0.amount
            (if t0.type == "income" then "expense" else "income"),
          AdjustCall.mk (applyTransactionUpdate t0 u).account_id
            (applyTransactionUpdate t0 u).amount (applyTransactionUpdate t0 u).type])
    ∧ (t0.account_id = (applyTransactionUpdate t0 u).account_id →
        (t0.amount ≠ (applyTransactionUpdate t0 u).amount
          ∨ t0.type ≠ (applyTransactionUpdate t0 u).type) →
        (run_update_transaction d t0 u).2.1
          = [AdjustCall.mk t0.account_id t0.amount
              (if t0.type == "income" then "expense" else "income"),
            AdjustCall.mk t0.account_id
              (applyTransactionUpdate t0 u).amount (applyTransactionUpdate t0 u).type])
    ∧ (t0.account_id = (applyTransactionUpdate t0 u).account_id →
        t0.amount = (applyTransactionUpdate t0 u).amount →
        t0.type = (applyTransactionUpdate t0 u).type →
        (run_update_transaction d t0 u).2.1 = [])
    ∧ (u.account_id = some t0.account_id → u.amount = none → u.type = none →
        (run_update_transaction d t0 u).2.1 = []) := by
  have hrun : (run_update_transaction d t0 u).2.1
      = (update_transaction (initSess d) t0 u).1.log := rfl
  have hlog := update_transaction_log (initSess d) t0 u
  refine ⟨?_, ?_, ?_, ?_⟩
  · intro hacc
    rw [hrun, hlog, if_pos hacc]
    simp [initSess]
  · intro heq hch
    rw [hrun, hlog, if_neg (fun h => h heq), if_pos hch]
    simp [initSess, heq]
  · intro heq hamt hty2
    rw [hrun, hlog, if_neg (fun h => h heq),
      if_neg (not_or.mpr ⟨fun h => h hamt, fun h => h hty2⟩)]
    rfl
  · intro hA hB hC
    have h1 : (applyTransactionUpdate t0 u).account_id = t0.account_id := by
      simp [applyTransactionUpdate, hA]
    have h2 : (applyTransactionUpdate t0 u).amount = t0.amount := by
      simp [applyTransactionUpdate, hB]
    have h3 : (applyTransactionUpdate t0 u).type = t0.type := by
      simp [applyTransactionUpdate, hC]
    rw [hrun, hlog, if_neg (fun h => h h1.symm),
      if_neg (not_or.mpr ⟨fun h => h h2.symm, fun h => h h3.symm⟩)]
    rfl

/-- C7: owner-scoped lookups fold "owned by someone else" into "does not
exist".  For a caller with a real (nonzero) user id whose path user id
matches their own, requesting an account, transaction or budget id that
either does not exist or belongs to a different user yields NotFound — the
Forbidden branch is reserved for a mismatched path user id, and the owner
filter sits inside the same query as the id filter. -/
theorem c7_ownership_notfound_folding (d : DB) (c : Nat) (hc : c ≠ 0)
    (aid tid bid : Nat)
    (ha : ∀ a ∈ d.accounts, a.id = aid → a.owner_id ≠ c)
    (ht : ∀ t ∈ d.transactions, t.id = tid → t.user_id ≠ c)
    (hb : ∀ b ∈ d.budgets, b.id = bid → b.user_id ≠ c) :
    read_user_account_by_id_api d c c aid = ApiOutcome.notFound
    ∧ read_transaction_api d c c tid = ApiOutcome.notFound
    ∧ read_budget_api d c c bid = ApiOutcome.notFound := by
  refine ⟨?_, ?_, ?_⟩
  · have hfind : d.accounts.find? (fun a => a.id == aid && a.owner_id == c) = none := by
      rw [List.find?_eq_none]
      intro a hamem
      simp only [Bool.and_eq_true, beq_iff_eq, not_and]
      intro haid
      exact ha a hamem haid
    simp [read_user_account_by_id_api, get_account, hc, hfind]
  · have hfind : d.transactions.find? (fun t => t.id == tid && t.user_id == c) = none := by
      rw [List.find?_eq_none]
      intro t htmem
      simp only [Bool.and_eq_true, beq_iff_eq, not_and]
      intro htid
      exact ht t htmem htid
    simp [read_transaction_api, get_transaction, hc, hfind]
  · have hfind : d.budgets.find? (fun b => b.id == bid && b.user_id == c) = none := by
      rw [List.find?_eq_none]
      intro b hbmem
      simp only [Bool.and_eq_true, beq_iff_eq, not_and]
      intro hbid
      exact hb b hbmem hbid
    simp [read_budget_api, get_budget, hfind]

/-- C9: creating a budget for a (user, category) pair that already has one
is an expected rejection, not a crash.  Starting from a store with no budget
for the pair, the first create succeeds and leaves exactly one row for the
pair; the second identical request is rejected with the already-exists
signal (HTTP 400) and the store still holds exactly one row. -/
theorem c9_duplicate_budget_rejected (d : DB) (uid : Nat) (bc : BudgetCreate)
    (nid1 nid2 : Nat)
    (hcat : (get_category d bc.category_id).isSome = true)
    (h0 : budgetCount d uid bc.category_id = 0) :
    (∃ b, (create_budget_for_user_api d uid uid bc nid1).2 = ApiOutcome.ok b)
    ∧ budgetCount (create_budget_for_user_api d uid uid bc nid1).1 uid bc.category_id = 1
    ∧ (create_budget_for_user_api
        (create_budget_for_user_api d uid uid bc nid1).1 uid uid bc nid2).2
        = ApiOutcome.badRequest
    ∧ budgetCount (create_budget_for_user_api
        (create_budget_for_user_api d uid uid bc nid1).1 uid uid bc nid2).1
        uid bc.category_id = 1 := by
  have hnil : d.budgets.filter
      (fun b => b.user_id == uid && b.category_id == bc.category_id) = [] := by
    have := h0
    simpa [budgetCount, List.length_eq_zero] using this
  have hany : d.budgets.any
      (fun b => b.user_id == uid && b.category_id == bc.category_id) = false := by
    rw [List.any_eq_false]
    intro b hbmem
    intro hbp
    have : b ∈ d.budgets.filter
        (fun b => b.user_id == uid && b.category_id == bc.category_id) :=
      List.mem_filter.mpr ⟨hbmem, hbp⟩
    rw [hnil] at this
    simp at this
  have hD1 : create_budget_for_user_api d uid uid bc nid1
      = ({ d with budgets := d.budgets ++ [Budget.mk nid1 bc.amount bc.period uid bc.category_id] },
        ApiOutcome.ok (Budget.mk nid1 bc.amount bc.period uid bc.category_id)) := by
    simp [create_budget_for_user_api, create_budget, hcat, hany]
  have hcount1 : budgetCount
      ({ d with budgets := d.budgets ++ [Budget.mk nid1 bc.amount bc.period uid bc.category_id] } : DB)
      uid bc.category_id = 1 := by
    simp [budgetCount, List.filter_append, hnil]
  have hany2 : (d.budgets ++ [Budget.mk nid1 bc.amount bc.period uid bc.category_id]).any
      (fun b => b.user_id == uid && b.category_id == bc.category_id) = true := by
    simp
  have hD2 : create_budget_for_user_api
      ({ d with budgets := d.budgets ++ [Budget.mk nid1 bc.amount bc.period uid bc.category_id] } : DB)
      uid uid bc nid2
      = ({ d with budgets := d.budgets ++ [Budget.mk nid1 bc.amount bc.period uid bc.category_id] },
        ApiOutcome.badRequest) := by
    simp [create_budget_for_user_api, create_budget, get_category, hany2]
    obtain ⟨cobj, hcobj⟩ := Option.isSome_iff_exists.mp hcat
    exact ⟨cobj, List.mem_of_find?_eq_some hcobj, by simpa using List.find?_some hcobj⟩
  refine ⟨⟨Budget.mk nid1 bc.amount bc.period uid bc.category_id, by rw [hD1]⟩, ?_, ?_, ?_⟩
  · rw [hD1]
    exact hcount1
  · rw [hD1]
    dsimp only
    rw [hD2]
  · rw [hD1]
    dsimp only
    rw [hD2]
    exact hcount1

/-- Insertion grows the length by one. -/
theorem length_insertLe {α : Type} (le : α → α → Bool) (x : α) (l : List α) :
    (insertLe le x l).length = l.length + 1 := by
  induction l with
  | nil => rfl
  | cons y ys ih =>
    by_cases h : le x y
    · simp [insertLe, h]
    · simp [insertLe, h, ih]

/-- Membership through insertion. -/
theorem mem_insertLe {α : Type} (le : α → α → Bool) (x y : α) (l : List α) :
    y ∈ insertLe le x l ↔ y = x ∨ y ∈ l := by
  induction l with
  | nil => simp [insertLe]
  | cons z zs ih =>
    by_cases h : le x z
    · simp [insertLe, h]
    · simp [insertLe, h, ih]
      tauto

/-- Sorting preserves the length. -/
theorem length_sortLe {α : Type} (le : α → α → Bool) (l : List α) :
    (sortLe le l).length = l.length := by
  induction l with
  | nil => rfl
  | cons x xs ih => simp [sortLe, length_insertLe, ih]

/-- Sorting preserves membership. -/
theorem mem_sortLe {α : Type} (le : α → α → Bool) (y : α) (l : List α) :
    y ∈ sortLe le l ↔ y ∈ l := by
  induction l with
  | nil => simp [sortLe]
  | cons x xs ih => simp [sortLe, mem_insertLe, ih]

/-- Insertion into a sorted list stays sorted, for a total transitive
comparison. -/
theorem pairwise_insertLe {α : Type} (le : α → α → Bool)
    (htot : ∀ a b, (le a b || le b a) = true)
    (htrans : ∀ a b c, le a b = true → le b c = true → le a c = true)
    (x : α) (l : List α) (hl : l.Pairwise (fun a b => le a b = true)) :
    (insertLe le x l).Pairwise (fun a b => le a b = true) := by
  induction l with
  | nil => simp [insertLe]
  | cons y ys ih =>
    rw [List.pairwise_cons] at hl
    by_cases h : le x y
    · rw [show insertLe le x (y :: ys) = x :: y :: ys from by simp [insertLe, h]]
      rw [List.pairwise_cons]
      constructor
      · intro z hz
        rcases List.mem_cons.mp hz with hzy | hzys
        · exact hzy ▸ h
        · exact htrans x y z h (hl.1 z hzys)
      · exact List.pairwise_cons.mpr hl
    · rw [show insertLe le x (y :: ys) = y :: insertLe le x ys from by simp [insertLe, h]]
      rw [List.pairwise_cons]
      constructor
      · intro z hz
        rcases (mem_insertLe le x z ys).mp hz with hzx | hzys
        · have hyx := htot x y
          simp [h] at hyx
          rw [hzx]
          exact hyx
        · exact hl.1 z hzys
      · exact ih hl.2

/-- Insertion sort sorts, for a total transitive comparison. -/
theorem pairwise_sortLe {α : Type} (le : α → α → Bool)
    (htot : ∀ a b, (le a b || le b a) = true)
    (htrans : ∀ a b c, le a b = true → le b c = true → le a c = true)
    (l : List α) : (sortLe le l).Pairwise (fun a b => le a b = true) := by
  induction l with
  | nil => simp [sortLe]
  | cons x xs ih => exact pairwise_insertLe le htot htrans x (sortLe le xs) ih

/-- The transaction sort step preserves length, whatever key and order. -/
theorem length_sortTransactions (l : List Transaction) (sort_by order : String) :
    (sortTransactions l sort_by order).length = l.length := by
  unfold sortTransactions
  split_ifs <;> simp [length_sortLe]

/-- The transaction sort step preserves membership. -/
theorem mem_sortTransactions (t : Transaction) (l : List Transaction)
    (sort_by order : String) :
    t ∈ sortTransactions l sort_by order ↔ t ∈ l := by
  unfold sortTransactions
  split_ifs <;> simp [mem_sortLe]

/-- Every filter step only narrows the list. -/
theorem q_start_subset (l : List Transaction) (sd : Option Nat) :
    q_start l sd ⊆ l := by
  cases sd with
  | none => exact fun _ h => h
  | some x => exact fun a ha => List.mem_of_mem_filter ha

/-- Every filter step only narrows the list. -/
theorem q_end_subset (l : List Transaction) (ed : Option Nat) :
    q_end l ed ⊆ l := by
  cases ed with
  | none => exact fun _ h => h
  | some x => exact fun a ha => List.mem_of_mem_filter ha

/-- Every filter step only narrows the list. -/
theorem q_cat_subset (l : List Transaction) (cid : Option Nat) :
    q_cat l cid ⊆ l := by
  cases cid with
  | none => exact fun _ h => h
  | some c =>
    by_cases h : c ≠ 0
    · simp only [q_cat, if_pos h]
      exact fun a ha => List.mem_of_mem_filter ha
    · simp only [q_cat, if_neg h]
      exact fun _ h => h

/-- Every filter step only narrows the list. -/
theorem q_type_subset (l : List Transaction) (ty : Option String) :
    q_type l ty ⊆ l := by
  cases ty with
  | none => exact fun _ h => h
  | some t =>
    by_cases h : t ≠ ""
    · simp only [q_type, if_pos h]
      exact fun a ha => List.mem_of_mem_filter ha
    · simp only [q_type, if_neg h]
      exact fun _ h => h

/-- Date lower bound once the start-date filter has run. -/
theorem mem_q_start (l : List Transaction) (x : Nat) (t : Transaction)
    (h : t ∈ q_start l (some x)) : x ≤ t.date := by
  have := List.of_mem_filter h
  simpa using this

/-- Date upper bound once the end-date filter has run. -/
theorem mem_q_end (l : List Transaction) (x : Nat) (t : Transaction)
    (h : t ∈ q_end l (some x)) : t.date ≤ x := by
  have := List.of_mem_filter h
  simpa using this

/-- Category constraint once the category filter has run with a truthy id. -/
theorem mem_q_cat (l : List Transaction) (c : Nat) (hc : c ≠ 0) (t : Transaction)
    (h : t ∈ q_cat l (some c)) : t.category_id = some c := by
  rw [q_cat, if_pos hc] at h
  have := List.of_mem_filter h
  simpa using this

/-- Type constraint once the type filter has run with a truthy string. -/
theorem mem_q_type (l : List Transaction) (ty : String) (hty : ty ≠ "")
    (t : Transaction) (h : t ∈ q_type l (some ty)) : t.type = ty := by
  rw [q_type, if_pos hty] at h
  have := List.of_mem_filter h
  simpa using this

/-- C10: pagination defaults and their placement.  With the default
`skip = 0` and `limit = 100` (the values the crud and API signatures default
to), every list operation returns at most 100 records; the limit bites after
the filters — the result length is exactly `min 100` of the filtered count —
and every returned transaction satisfies the requested filters; with the
default sort (date, descending) the returned page is sorted before the
slice is taken. -/
theorem c10_pagination_defaults (d : DB) (rows : List CategoryRow) (uid : Nat)
    (sd ed : Option Nat) (cid : Option Nat) (tty tf : Option String)
    (sort_by order : String) :
    (get_accounts d uid default_skip default_limit).length ≤ 100
    ∧ (∀ a ∈ get_accounts d uid default_skip default_limit, a.owner_id = uid)
    ∧ (get_accounts d uid default_skip default_limit).length
        = min 100 (d.accounts.filter (fun a => a.owner_id == uid)).length
    ∧ (get_categories rows default_skip default_limit tf).length ≤ 100
    ∧ (get_transactions d uid sd ed cid tty sort_by order default_skip default_limit).length
        ≤ 100
    ∧ (get_transactions d uid sd ed cid tty sort_by order default_skip default_limit).length
        = min 100 (transactions_query d uid sd ed cid tty).length
    ∧ (∀ t ∈ get_transactions d uid sd ed cid tty sort_by order default_skip default_limit,
        t.user_id = uid
        ∧ (∀ x, sd = some x → x ≤ t.date)
        ∧ (∀ x, ed = some x → t.date ≤ x)
        ∧ (∀ c2, cid = some c2 → c2 ≠ 0 → t.category_id = some c2)
        ∧ (∀ ty, tty = some ty → ty ≠ "" → t.type = ty))
    ∧ List.Pairwise (fun a b => b.date ≤ a.date)
        (get_transactions d uid sd ed cid tty "date" "desc" default_skip default_limit) := by
  have hacc_len : (get_accounts d uid default_skip default_limit).length
      = min 100 (d.accounts.filter (fun a => a.owner_id == uid)).length := by
    simp [get_accounts, default_skip, default_limit, List.length_take]
  have htx_len : ∀ (sb o : String),
      (get_transactions d uid sd ed cid tty sb o default_skip default_limit).length
      = min 100 (transactions_query d uid sd ed cid tty).length := by
    intro sb o
    simp [get_transactions, default_skip, default_limit, List.length_take,
      length_sortTransactions]
  have htx_mem : ∀ (sb o : String) (t : Transaction),
      t ∈ get_transactions d uid sd ed cid tty sb o default_skip default_limit →
      t ∈ transactions_query d uid sd ed cid tty := by
    intro sb o t ht
    rw [get_transactions, default_skip, List.drop_zero] at ht
    exact (mem_sortTransactions t _ sb o).mp (List.take_subset _ _ ht)
  refine ⟨?_, ?_, hacc_len, ?_, ?_, htx_len sort_by order, ?_, ?_⟩
  · rw [hacc_len]
    exact Nat.min_le_left _ _
  · intro a ha
    rw [get_accounts, default_skip, List.drop_zero] at ha
    have := List.mem_filter.mp (List.take_subset _ _ ha)
    simpa using this.2
  · rcases tf with _ | f
    · simp [get_categories, default_skip, default_limit, List.length_take]
    · by_cases hf : f ≠ ""
      · simp [get_categories, default_skip, default_limit, hf, List.length_take]
      · simp [get_categories, default_skip, default_limit, hf, List.length_take]
  · rw [htx_len sort_by order]
    exact Nat.min_le_left _ _
  · intro t ht
    have hq := htx_mem sort_by order t ht
    have hq_cat : t ∈ q_cat (q_end (q_start
        (d.transactions.filter (fun t => t.user_id == uid)) sd) ed) cid :=
      q_type_subset _ tty hq
    have hq_end : t ∈ q_end (q_start
        (d.transactions.filter (fun t => t.user_id == uid)) sd) ed :=
      q_cat_subset _ cid hq_cat
    have hq_start : t ∈ q_start
        (d.transactions.filter (fun t => t.user_id == uid)) sd :=
      q_end_subset _ ed hq_end
    have hq_user : t ∈ d.transactions.filter (fun t => t.user_id == uid) :=
      q_start_subset _ sd hq_start
    refine ⟨?_, ?_, ?_, ?_, ?_⟩
    · simpa using (List.mem_filter.mp hq_user).2
    · intro x hx
      rw [hx] at hq_start
      exact mem_q_start _ x t hq_start
    · intro x hx
      rw [hx] at hq_end
      exact mem_q_end _ x t hq_end
    · intro c2 hc2 hcz
      rw [hc2] at hq_cat
      exact mem_q_cat _ c2 hcz t hq_cat
    · intro ty hty htz
      rw [hty] at hq
      exact mem_q_type _ ty htz t hq
  · rw [get_transactions, default_skip, List.drop_zero]
    have hsorted : (sortTransactions (transactions_query d uid sd ed cid tty)
        "date" "desc").Pairwise (fun a b => (decide (b.date ≤ a.date)) = true) := by
      rw [show sortTransactions (transactions_query d uid sd ed cid tty) "date" "desc"
          = sortLe (fun a b => decide (b.date ≤ a.date))
            (transactions_query d uid sd ed cid tty) from by simp [sortTransactions]]
      exact pairwise_sortLe _
        (fun a b => by simpa using Nat.le_total b.date a.date)
        (fun a b c h1 h2 => by
          simp at h1 h2 ⊢
          omega)
        _
    have hsub := hsorted.sublist
      (List.take_sublist default_limit
        (sortTransactions (transactions_query d uid sd ed cid tty) "date" "desc"))
    exact hsub.imp (fun h => by simpa using h)

/-- Core reconciliation lemma: reversing the old delta and applying the new
one (the body of both balance-relevant branches of `update_transaction`,
after the row has been replaced in the pending state) restores the ledger
invariant whenever the second engine call does not raise. -/
theorem two_adjust_invariant (d : DB) (t0 t1 : Transaction) (lg : List AdjustCall)
    (s2 s3 : Sess) (r2 r3 : Except PyError (Option Account))
    (hA : (d.accounts.map Account.id).Nodup)
    (hT : (d.transactions.map Transaction.id).Nodup)
    (hinv : BalanceInvariant d)
    (hmem : t0 ∈ d.transactions)
    (hid : t1.id = t0.id)
    (hadj1 : adjust_account_balance
      (Sess.mk d ({ d with transactions := updateFirstTransaction d.transactions t0.id t1 }) lg)
      t0.account_id t0.amount (if t0.type == "income" then "expense" else "income") = (s2, r2))
    (hadj2 : adjust_account_balance s2 t1.account_id t1.amount t1.type = (s3, r3))
    (hok : ∃ v, r3 = Except.ok v) :
    BalanceInvariant s3.pending := by
  have hsum : ∀ aid, acctSum (updateFirstTransaction d.transactions t0.id t1) aid
      = acctSum d.transactions aid - contribTo aid t0 + contribTo aid t1 :=
    fun aid => acctSum_updateFirstTransaction d.transactions t0 t1 aid hT hmem hid
  cases hf1 : d.accounts.find? (fun a => a.id == t0.account_id) with
  | none =>
    have hne1 : ∀ a ∈ d.accounts, a.id ≠ t0.account_id := by
      intro a hamem
      have := List.find?_eq_none.mp hf1 a hamem
      simpa using this
    rw [adjust_none _ t0.account_id t0.amount _ hf1] at hadj1
    have hs2p : s2.pending
        = ({ d with transactions := updateFirstTransaction d.transactions t0.id t1 } : DB) :=
      (congrArg (fun p : Sess × Except PyError (Option Account) => p.1.pending) hadj1).symm
    cases hf2 : d.accounts.find? (fun a => a.id == t1.account_id) with
    | none =>
      have hne2 : ∀ a ∈ d.accounts, a.id ≠ t1.account_id := by
        intro a hamem
        have := List.find?_eq_none.mp hf2 a hamem
        simpa using this
      have hfind2 : s2.pending.accounts.find? (fun a => a.id == t1.account_id) = none := by
        rw [hs2p]; exact hf2
      rw [adjust_none s2 t1.account_id t1.amount t1.type hfind2] at hadj2
      have hs3p : s3.pending = s2.pending :=
        (congrArg (fun p : Sess × Except PyError (Option Account) => p.1.pending) hadj2).symm
      rw [hs3p, hs2p]
      intro a hamem
      rw [show (({ d with transactions := updateFirstTransaction d.transactions t0.id t1 } : DB)).transactions = updateFirstTransaction d.transactions t0.id t1 from rfl]
      rw [hsum a.id, contribTo_of_ne a.id t0 (Ne.symm (hne1 a hamem)),
        contribTo_of_ne a.id t1 (Ne.symm (hne2 a hamem))]
      simpa using hinv a hamem
    | some a0 =>
      have ha0 : a0.id = t1.account_id := by simpa using List.find?_some hf2
      have ha0mem : a0 ∈ d.accounts := List.mem_of_find?_eq_some hf2
      have hfind2 : s2.pending.accounts.find? (fun a => a.id == t1.account_id) = some a0 := by
        rw [hs2p]; exact hf2
      by_cases hv : t1.type = "income" ∨ t1.type = "expense"
      · rw [adjust_apply_found s2 t1 a0 hv hfind2] at hadj2
        have hs3p : s3.pending = ({ s2.pending with accounts := updateFirstAccount s2.pending.accounts t1.account_id ({ a0 with balance := a0.balance + signedAmount t1 }) } : DB) :=
          (congrArg (fun p : Sess × Except PyError (Option Account) => p.1.pending) hadj2).symm
        rw [hs3p, hs2p]
        have hne12 : t0.account_id ≠ t1.account_id := by
          intro e
          exact hne1 a0 ha0mem (ha0.trans e.symm)
        intro b hb
        refine forall_mem_updateFirstAccount d.accounts t1.account_id _
          (fun b => b.balance = acctSum (updateFirstTransaction d.transactions t0.id t1) b.id)
          hA ?_ ?_ b hb
        · intro b2 hb2mem hb2ne
          rw [hsum b2.id, contribTo_of_ne b2.id t0 (Ne.symm (hne1 b2 hb2mem)),
            contribTo_of_ne b2.id t1 (Ne.symm hb2ne)]
          simpa using hinv b2 hb2mem
        · show a0.balance + signedAmount t1
            = acctSum (updateFirstTransaction d.transactions t0.id t1) a0.id
          rw [ha0, hsum t1.account_id, contribTo_of_ne t1.account_id t0 hne12,
            contribTo_self t1.account_id t1 rfl]
          have := hinv a0 ha0mem
          rw [ha0] at this
          rw [← this]
          ring
      · have hv1 : t1.type ≠ "income" := fun h => hv (Or.inl h)
        have hv2 : t1.type ≠ "expense" := fun h => hv (Or.inr h)
        rw [adjust_found_invalid s2 t1.account_id t1.amount t1.type a0 hv1 hv2 hfind2] at hadj2
        have hr3 : r3 = Except.error PyError.invalidTransactionType :=
          (congrArg (fun p : Sess × Except PyError (Option Account) => p.2) hadj2).symm
        obtain ⟨v, hvv⟩ := hok
        rw [hvv] at hr3
        exact absurd hr3 (by simp)
  | some b0 =>
    have hb0 : b0.id = t0.account_id := by simpa using List.find?_some hf1
    have hb0mem : b0 ∈ d.accounts := List.mem_of_find?_eq_some hf1
    have hsome1 : (d.accounts.find? (fun a => a.id == t0.account_id)).isSome := by
      rw [hf1]; rfl
    rw [adjust_reverse_found
      (Sess.mk d ({ d with transactions := updateFirstTransaction d.transactions t0.id t1 }) lg)
      t0 b0 hf1] at hadj1
    have hs2p : s2.pending = ({ d with
        accounts := updateFirstAccount d.accounts t0.account_id
          ({ b0 with balance := b0.balance - signedAmount t0 }),
        transactions := updateFirstTransaction d.transactions t0.id t1 } : DB) :=
      (congrArg (fun p : Sess × Except PyError (Option Account) => p.1.pending) hadj1).symm
    by_cases haa : t1.account_id = t0.account_id
    · have hfind2 : s2.pending.accounts.find? (fun a => a.id == t1.account_id)
          = some ({ b0 with balance := b0.balance - signedAmount t0 }) := by
        rw [hs2p]
        show (updateFirstAccount d.accounts t0.account_id
          ({ b0 with balance := b0.balance - signedAmount t0 })).find?
            (fun a => a.id == t1.account_id) = _
        rw [haa]
        exact find?_updateFirstAccount_self d.accounts t0.account_id
          ({ b0 with balance := b0.balance - signedAmount t0 }) hb0 hsome1
      by_cases hv : t1.type = "income" ∨ t1.type = "expense"
      · rw [adjust_apply_found s2 t1 ({ b0 with balance := b0.balance - signedAmount t0 }) hv hfind2] at hadj2
        have hs3p : s3.pending = ({ s2.pending with accounts := updateFirstAccount s2.pending.accounts t1.account_id ({ b0 with balance := b0.balance - signedAmount t0 + signedAmount t1 }) } : DB) :=
          (congrArg (fun p : Sess × Except PyError (Option Account) => p.1.pending) hadj2).symm
        rw [hs3p, hs2p]
        have hA1 : ((updateFirstAccount d.accounts t0.account_id
            ({ b0 with balance := b0.balance - signedAmount t0 })).map Account.id).Nodup := by
          rw [map_id_updateFirstAccount d.accounts t0.account_id
            ({ b0 with balance := b0.balance - signedAmount t0 }) hb0]
          exact hA
        intro b hb
        refine forall_mem_updateFirstAccount _ t1.account_id _
          (fun b => b.balance = acctSum (updateFirstTransaction d.transactions t0.id t1) b.id)
          hA1 ?_ ?_ b hb
        · intro b2 hb2mem hb2ne
          refine forall_mem_updateFirstAccount d.accounts t0.account_id _
            (fun b3 => b3.id ≠ t1.account_id → b3.balance
              = acctSum (updateFirstTransaction d.transactions t0.id t1) b3.id)
            hA ?_ ?_ b2 hb2mem hb2ne
          · intro b3 hb3mem hb3ne hb3ne2
            rw [hsum b3.id, contribTo_of_ne b3.id t0 (Ne.symm hb3ne),
              contribTo_of_ne b3.id t1 (Ne.symm hb3ne2)]
            simpa using hinv b3 hb3mem
          · intro hb3ne2
            exact absurd (hb0.trans haa.symm) hb3ne2
        · show b0.balance - signedAmount t0 + signedAmount t1
            = acctSum (updateFirstTransaction d.transactions t0.id t1)
              ({ b0 with balance := b0.balance - signedAmount t0 + signedAmount t1 } : Account).id
          show b0.balance - signedAmount t0 + signedAmount t1
            = acctSum (updateFirstTransaction d.transactions t0.id t1) b0.id
          rw [hb0, hsum t0.account_id, contribTo_self t0.account_id t0 rfl,
            contribTo_self t0.account_id t1 haa]
          have := hinv b0 hb0mem
          rw [hb0] at this
          rw [← this]
      · have hv1 : t1.type ≠ "income" := fun h => hv (Or.inl h)
        have hv2 : t1.type ≠ "expense" := fun h => hv (Or.inr h)
        rw [adjust_found_invalid s2 t1.account_id t1.amount t1.type _ hv1 hv2 hfind2] at hadj2
        have hr3 : r3 = Except.error PyError.invalidTransactionType :=
          (congrArg (fun p : Sess × Except PyError (Option Account) => p.2) hadj2).symm
        obtain ⟨v, hvv⟩ := hok
        rw [hvv] at hr3
        exact absurd hr3 (by simp)
    · have hfind2base : (updateFirstAccount d.accounts t0.account_id
          ({ b0 with balance := b0.balance - signedAmount t0 })).find?
            (fun a => a.id == t1.account_id)
          = d.accounts.find? (fun a => a.id == t1.account_id) :=
        find?_updateFirstAccount_ne d.accounts t0.account_id
          ({ b0 with balance := b0.balance - signedAmount t0 }) hb0 t1.account_id haa
      cases hf2 : d.accounts.find? (fun a => a.id == t1.account_id) with
      | none =>
        have hne2 : ∀ a ∈ d.accounts, a.id ≠ t1.account_id := by
          intro a hamem
          have := List.find?_eq_none.mp hf2 a hamem
          simpa using this
        have hfind2 : s2.pending.accounts.find? (fun a => a.id == t1.account_id) = none := by
          rw [hs2p]
          exact hfind2base.trans hf2
        rw [adjust_none s2 t1.account_id t1.amount t1.type hfind2] at hadj2
        have hs3p : s3.pending = s2.pending :=
          (congrArg (fun p : Sess × Except PyError (Option Account) => p.1.pending) hadj2).symm
        rw [hs3p, hs2p]
        intro b hb
        refine forall_mem_updateFirstAccount d.accounts t0.account_id _
          (fun b => b.balance = acctSum (updateFirstTransaction d.transactions t0.id t1) b.id)
          hA ?_ ?_ b hb
        · intro b2 hb2mem hb2ne
          rw [hsum b2.id, contribTo_of_ne b2.id t0 (Ne.symm hb2ne),
            contribTo_of_ne b2.id t1 (Ne.symm (hne2 b2 hb2mem))]
          simpa using hinv b2 hb2mem
        · show b0.balance - signedAmount t0
            = acctSum (updateFirstTransaction d.transactions t0.id t1) b0.id
          rw [hb0, hsum t0.account_id, contribTo_self t0.account_id t0 rfl,
            contribTo_of_ne t0.account_id t1 haa]
          have := hinv b0 hb0mem
          rw [hb0] at this
          rw [← this]
          ring
      | some a0 =>
        have ha0 : a0.id = t1.account_id := by simpa using List.find?_some hf2
        have ha0mem : a0 ∈ d.accounts := List.mem_of_find?_eq_some hf2
        have hfind2 : s2.pending.accounts.find? (fun a => a.id == t1.account_id) = some a0 := by
          rw [hs2p]
          exact hfind2base.trans hf2
        by_cases hv : t1.type = "income" ∨ t1.type = "expense"
        · rw [adjust_apply_found s2 t1 a0 hv hfind2] at hadj2
          have hs3p : s3.pending = ({ s2.pending with accounts := updateFirstAccount s2.pending.accounts t1.account_id ({ a0 with balance := a0.balance + signedAmount t1 }) } : DB) :=
            (congrArg (fun p : Sess × Except PyError (Option Account) => p.1.pending) hadj2).symm
          rw [hs3p, hs2p]
          have hA1 : ((updateFirstAccount d.accounts t0.account_id
              ({ b0 with balance := b0.balance - signedAmount t0 })).map Account.id).Nodup := by
            rw [map_id_updateFirstAccount d.accounts t0.account_id
              ({ b0 with balance := b0.balance - signedAmount t0 }) hb0]
            exact hA
          intro b hb
          refine forall_mem_updateFirstAccount _ t1.account_id _
            (fun b => b.balance = acctSum (updateFirstTransaction d.transactions t0.id t1) b.id)
            hA1 ?_ ?_ b hb
          · intro b2 hb2mem hb2ne
            refine forall_mem_updateFirstAccount d.accounts t0.account_id _
              (fun b3 => b3.id ≠ t1.account_id → b3.balance
                = acctSum (updateFirstTransaction d.transactions t0.id t1) b3.id)
              hA ?_ ?_ b2 hb2mem hb2ne
            · intro b3 hb3mem hb3ne hb3ne2
              rw [hsum b3.id, contribTo_of_ne b3.id t0 (Ne.symm hb3ne),
                contribTo_of_ne b3.id t1 (Ne.symm hb3ne2)]
              simpa using hinv b3 hb3mem
            · intro hb3ne2
              show b0.balance - signedAmount t0
                = acctSum (updateFirstTransaction d.transactions t0.id t1) b0.id
              rw [hb0, hsum t0.account_id, contribTo_self t0.account_id t0 rfl,
                contribTo_of_ne t0.account_id t1 haa]
              have := hinv b0 hb0mem
              rw [hb0] at this
              rw [← this]
              ring
          · show a0.balance + signedAmount t1
              = acctSum (updateFirstTransaction d.transactions t0.id t1) a0.id
            rw [ha0, hsum t1.account_id,
              contribTo_of_ne t1.account_id t0 (fun e => haa e.symm),
              contribTo_self t1.account_id t1 rfl]
            have := hinv a0 ha0mem
            rw [ha0] at this
            rw [← this]
            ring
        · have hv1 : t1.type ≠ "income" := fun h => hv (Or.inl h)
          have hv2 : t1.type ≠ "expense" := fun h => hv (Or.inr h)
          rw [adjust_found_invalid s2 t1.account_id t1.amount t1.type a0 hv1 hv2 hfind2] at hadj2
          have hr3 : r3 = Except.error PyError.invalidTransactionType :=
            (congrArg (fun p : Sess × Except PyError (Option Account) => p.2) hadj2).symm
          obtain ⟨v, hvv⟩ := hok
          rw [hvv] at hr3
          exact absurd hr3 (by simp)

/-- A successful `update_transaction` run restores the ledger invariant. -/
theorem update_transaction_invariant (d : DB) (t0 : Transaction) (u : TransactionUpdate)
    (hA : (d.accounts.map Account.id).Nodup)
    (hT : (d.transactions.map Transaction.id).Nodup)
    (hinv : BalanceInvariant d)
    (hmem : t0 ∈ d.transactions) :
    ∀ x, (update_transaction (initSess d) t0 u).2 = Except.ok x →
      BalanceInvariant (update_transaction (initSess d) t0 u).1.persisted := by
  intro x hok2
  simp only [update_transaction] at hok2 ⊢
  by_cases hacc : t0.account_id ≠ (applyTransactionUpdate t0 u).account_id
  · rw [if_pos hacc] at hok2 ⊢
    rcases hadj1 : adjust_account_balance ({ initSess d with pending := { (initSess d).pending with transactions := updateFirstTransaction (initSess d).pending.transactions t0.id (applyTransactionUpdate t0 u) } }) t0.account_id t0.amount (if t0.type == "income" then "expense" else "income") with ⟨s2, r2⟩
    rw [hadj1] at hok2
    cases r2 with
    | error e => simp at hok2
    | ok v2 =>
      dsimp only at hok2 ⊢
      rcases hadj2 : adjust_account_balance s2 (applyTransactionUpdate t0 u).account_id
          (applyTransactionUpdate t0 u).amount (applyTransactionUpdate t0 u).type
        with ⟨s3, r3⟩
      rw [hadj2] at hok2
      cases r3 with
      | error e => simp at hok2
      | ok v3 =>
        show BalanceInvariant s3.pending
        exact two_adjust_invariant d t0 (applyTransactionUpdate t0 u) [] s2 s3
          (Except.ok v2) (Except.ok v3) hA hT hinv hmem rfl hadj1 hadj2 ⟨v3, rfl⟩
  · rw [if_neg hacc] at hok2 ⊢
    by_cases hch : t0.amount ≠ (applyTransactionUpdate t0 u).amount
        ∨ t0.type ≠ (applyTransactionUpdate t0 u).type
    · rw [if_pos hch] at hok2 ⊢
      rcases hadj1 : adjust_account_balance ({ initSess d with pending := { (initSess d).pending with transactions := updateFirstTransaction (initSess d).pending.transactions t0.id (applyTransactionUpdate t0 u) } }) t0.account_id t0.amount (if t0.type == "income" then "expense" else "income") with ⟨s2, r2⟩
      rw [hadj1] at hok2
      cases r2 with
      | error e => simp at hok2
      | ok v2 =>
        dsimp only at hok2 ⊢
        rcases hadj2 : adjust_account_balance s2 (applyTransactionUpdate t0 u).account_id
            (applyTransactionUpdate t0 u).amount (applyTransactionUpdate t0 u).type
          with ⟨s3, r3⟩
        rw [hadj2] at hok2
        cases r3 with
        | error e => simp at hok2
        | ok v3 =>
          show BalanceInvariant s3.pending
          exact two_adjust_invariant d t0 (applyTransactionUpdate t0 u) [] s2 s3
            (Except.ok v2) (Except.ok v3) hA hT hinv hmem rfl hadj1 hadj2 ⟨v3, rfl⟩
    · rw [if_neg hch] at hok2 ⊢
      have heqacc : t0.account_id = (applyTransactionUpdate t0 u).account_id :=
        not_not.mp (fun h => hacc h)
      have hpair := not_or.mp hch
      have hamt : t0.amount = (applyTransactionUpdate t0 u).amount := not_not.mp hpair.1
      have hty : t0.type = (applyTransactionUpdate t0 u).type := not_not.mp hpair.2
      show BalanceInvariant (({ d with transactions := updateFirstTransaction d.transactions t0.id (applyTransactionUpdate t0 u) } : DB))
      intro a hamem
      show a.balance = acctSum
        (updateFirstTransaction d.transactions t0.id (applyTransactionUpdate t0 u)) a.id
      rw [acctSum_updateFirstTransaction d.transactions t0 (applyTransactionUpdate t0 u)
        a.id hT hmem rfl]
      have hc : contribTo a.id (applyTransactionUpdate t0 u) = contribTo a.id t0 := by
        simp only [contribTo, signedAmount]
        rw [← heqacc, ← hty, ← hamt]
      rw [hc]
      have := hinv a hamem
      linarith

/-- A successful `create_user_transaction` run restores the ledger
invariant. -/
theorem create_user_transaction_invariant (d : DB) (tc : TransactionCreate)
    (uid newId : Nat)
    (hA : (d.accounts.map Account.id).Nodup)
    (hinv : BalanceInvariant d) :
    ∀ x, (create_user_transaction (initSess d) tc uid newId).2 = Except.ok x →
      BalanceInvariant (create_user_transaction (initSess d) tc uid newId).1.persisted := by
  intro x hok2
  simp only [create_user_transaction] at hok2 ⊢
  rcases hadj : adjust_account_balance ({ initSess d with pending := { (initSess d).pending with transactions := (initSess d).pending.transactions ++ [Transaction.mk newId tc.amount tc.type tc.description (tc.date.getD 0) uid tc.account_id tc.category_id] } }) tc.account_id tc.amount tc.type with ⟨s2, r2⟩
  rw [hadj] at hok2
  cases r2 with
  | error e => simp at hok2
  | ok v2 =>
    show BalanceInvariant s2.pending
    cases hf : d.accounts.find? (fun a => a.id == tc.account_id) with
    | none =>
      rw [adjust_none _ tc.account_id tc.amount tc.type hf] at hadj
      have hs2p : s2.pending = ({ d with transactions := d.transactions ++ [Transaction.mk newId tc.amount tc.type tc.description (tc.date.getD 0) uid tc.account_id tc.category_id] } : DB) :=
        (congrArg (fun p : Sess × Except PyError (Option Account) => p.1.pending) hadj).symm
      rw [hs2p]
      intro a hamem
      have hne : a.id ≠ tc.account_id := by
        have := List.find?_eq_none.mp hf a hamem
        simpa using this
      show a.balance = acctSum (d.transactions
        ++ [Transaction.mk newId tc.amount tc.type tc.description (tc.date.getD 0) uid tc.account_id tc.category_id]) a.id
      rw [acctSum_append, contribTo_of_ne a.id _ (Ne.symm hne)]
      simpa using hinv a hamem
    | some a0 =>
      have ha0 : a0.id = tc.account_id := by simpa using List.find?_some hf
      have ha0mem : a0 ∈ d.accounts := List.mem_of_find?_eq_some hf
      by_cases hv : tc.type = "income" ∨ tc.type = "expense"
      · rw [adjust_apply_found _
          (Transaction.mk newId tc.amount tc.type tc.description (tc.date.getD 0) uid tc.account_id tc.category_id)
          a0 hv hf] at hadj
        have hs2p : s2.pending = ({ d with accounts := updateFirstAccount d.accounts tc.account_id ({ a0 with balance := a0.balance + signedAmount (Transaction.mk newId tc.amount tc.type tc.description (tc.date.getD 0) uid tc.account_id tc.category_id) }), transactions := d.transactions ++ [Transaction.mk newId tc.amount tc.type tc.description (tc.date.getD 0) uid tc.account_id tc.category_id] } : DB) :=
          (congrArg (fun p : Sess × Except PyError (Option Account) => p.1.pending) hadj).symm
        rw [hs2p]
        intro b hb
        refine forall_mem_updateFirstAccount d.accounts tc.account_id _
          (fun b => b.balance = acctSum (d.transactions
            ++ [Transaction.mk newId tc.amount tc.type tc.description (tc.date.getD 0) uid tc.account_id tc.category_id]) b.id)
          hA ?_ ?_ b hb
        · intro b2 hb2mem hb2ne
          rw [acctSum_append, contribTo_of_ne b2.id _ (Ne.symm hb2ne)]
          simpa using hinv b2 hb2mem
        · show a0.balance + signedAmount
            (Transaction.mk newId tc.amount tc.type tc.description (tc.date.getD 0) uid tc.account_id tc.category_id)
            = acctSum (d.transactions
              ++ [Transaction.mk newId tc.amount tc.type tc.description (tc.date.getD 0) uid tc.account_id tc.category_id]) a0.id
          rw [ha0, acctSum_append, contribTo_self tc.account_id _ rfl]
          have := hinv a0 ha0mem
          rw [ha0] at this
          rw [← this]
      · have hv1 : tc.type ≠ "income" := fun h => hv (Or.inl h)
        have hv2 : tc.type ≠ "expense" := fun h => hv (Or.inr h)
        rw [adjust_found_invalid _ tc.account_id tc.amount tc.type a0 hv1 hv2 hf] at hadj
        exact absurd
          (congrArg (fun p : Sess × Except PyError (Option Account) => p.2) hadj)
          (by simp)

/-- A `delete_transaction` run (which never fails) restores the ledger
invariant. -/
theorem delete_transaction_invariant (d : DB) (t0 : Transaction)
    (hA : (d.accounts.map Account.id).Nodup)
    (hT : (d.transactions.map Transaction.id).Nodup)
    (hinv : BalanceInvariant d)
    (hmem : t0 ∈ d.transactions) :
    BalanceInvariant (delete_transaction (initSess d) t0).1.persisted := by
  simp only [delete_transaction]
  rcases hadj : adjust_account_balance (initSess d) t0.account_id t0.amount
    (if t0.type == "income" then "expense" else "income") with ⟨s2, r2⟩
  cases r2 with
  | error e =>
    obtain ⟨v, hv⟩ := adjust_reverse_no_error (initSess d) t0.account_id t0.amount t0.type
    rw [hadj] at hv
    simp at hv
  | ok v2 =>
    show BalanceInvariant (({ s2.pending with transactions := s2.pending.transactions.filter (fun t => t.id != t0.id) } : DB))
    cases hf : d.accounts.find? (fun a => a.id == t0.account_id) with
    | none =>
      rw [adjust_none (initSess d) t0.account_id t0.amount _ hf] at hadj
      have hs2p : s2.pending = d :=
        (congrArg (fun p : Sess × Except PyError (Option Account) => p.1.pending) hadj).symm
      rw [hs2p]
      intro a hamem
      have hne : a.id ≠ t0.account_id := by
        have := List.find?_eq_none.mp hf a hamem
        simpa using this
      show a.balance = acctSum (d.transactions.filter (fun t => t.id != t0.id)) a.id
      rw [acctSum_filter_ne d.transactions t0 a.id hT hmem,
        contribTo_of_ne a.id t0 (Ne.symm hne)]
      simpa using hinv a hamem
    | some b0 =>
      have hb0 : b0.id = t0.account_id := by simpa using List.find?_some hf
      have hb0mem : b0 ∈ d.accounts := List.mem_of_find?_eq_some hf
      rw [adjust_reverse_found (initSess d) t0 b0 hf] at hadj
      have hs2p : s2.pending = ({ d with accounts := updateFirstAccount d.accounts t0.account_id ({ b0 with balance := b0.balance - signedAmount t0 }) } : DB) :=
        (congrArg (fun p : Sess × Except PyError (Option Account) => p.1.pending) hadj).symm
      rw [hs2p]
      intro b hb
      refine forall_mem_updateFirstAccount d.accounts t0.account_id _
        (fun b => b.balance
          = acctSum (d.transactions.filter (fun t => t.id != t0.id)) b.id)
        hA ?_ ?_ b hb
      · intro b2 hb2mem hb2ne
        rw [acctSum_filter_ne d.transactions t0 b2.id hT hmem,
          contribTo_of_ne b2.id t0 (Ne.symm hb2ne)]
        simpa using hinv b2 hb2mem
      · show b0.balance - signedAmount t0
          = acctSum (d.transactions.filter (fun t => t.id != t0.id)) b0.id
        rw [hb0, acctSum_filter_ne d.transactions t0 t0.account_id hT hmem,
          contribTo_self t0.account_id t0 rfl]
        have := hinv b0 hb0mem
        rw [hb0] at this
        rw [← this]

/-- C1 (amended): every transaction create, update or delete that completes
successfully preserves the spec invariant
`balance = sum of signed amounts of the account's transactions`; the
original claim additionally covered account operations and failing runs,
which the counterexample refutes. -/
theorem c1_amended_invariant_preservation (d : DB)
    (hA : (d.accounts.map Account.id).Nodup)
    (hT : (d.transactions.map Transaction.id).Nodup)
    (hinv : BalanceInvariant d) :
    (∀ tc uid newId d2 lg t2,
      run_create_user_transaction d tc uid newId = (d2, lg, Except.ok t2) →
      BalanceInvariant d2)
    ∧ (∀ t0 u d2 lg t2, t0 ∈ d.transactions →
      run_update_transaction d t0 u = (d2, lg, Except.ok t2) →
      BalanceInvariant d2)
    ∧ (∀ t0 d2 lg r, t0 ∈ d.transactions →
      run_delete_transaction d t0 = (d2, lg, r) →
      BalanceInvariant d2) := by
  refine ⟨?_, ?_, ?_⟩
  · intro tc uid newId d2 lg t2 hrun
    have h1 : (create_user_transaction (initSess d) tc uid newId).1.persisted = d2 :=
      congrArg (fun p : DB × List AdjustCall × Except PyError Transaction => p.1) hrun
    have h2 : (create_user_transaction (initSess d) tc uid newId).2 = Except.ok t2 :=
      congrArg (fun p : DB × List AdjustCall × Except PyError Transaction => p.2.2) hrun
    rw [← h1]
    exact create_user_transaction_invariant d tc uid newId hA hinv t2 h2
  · intro t0 u d2 lg t2 hmem hrun
    have h1 : (update_transaction (initSess d) t0 u).1.persisted = d2 :=
      congrArg (fun p : DB × List AdjustCall × Except PyError Transaction => p.1) hrun
    have h2 : (update_transaction (initSess d) t0 u).2 = Except.ok t2 :=
      congrArg (fun p : DB × List AdjustCall × Except PyError Transaction => p.2.2) hrun
    rw [← h1]
    exact update_transaction_invariant d t0 u hA hT hinv hmem t2 h2
  · intro t0 d2 lg r hmem hrun
    have h1 : (delete_transaction (initSess d) t0).1.persisted = d2 :=
      congrArg (fun p : DB × List AdjustCall × Except PyError Unit => p.1) hrun
    rw [← h1]
    exact delete_transaction_invariant d t0 hA hT hinv hmem

/-- C1 counterexample, refuting the claim as stated.  First component:
`update_account` with a client-supplied balance writes the balance field
directly (its adjustment-call log stays empty — the Balance Adjustment
Engine is never consulted) and breaks the invariant on a store where it
held.  Second component: a transaction update that fails mid-sequence (an
invalid type string on the second adjustment) also leaves the committed
store violating the invariant, so the unrestricted "every operation
preserves the equality" is false on both counts. -/
theorem c1_counterexample :
    (BalanceInvariant c1xdb
      ∧ (run_update_account c1xdb c1xacct c1xupd).2.1 = []
      ∧ ¬ BalanceInvariant (run_update_account c1xdb c1xacct c1xupd).1)
    ∧ (BalanceInvariant c1ydb
      ∧ (run_update_transaction c1ydb c1ytxn c1yupd).2.2
          = Except.error PyError.invalidTransactionType
      ∧ ¬ BalanceInvariant (run_update_transaction c1ydb c1ytxn c1yupd).1) := by
  constructor
  · refine ⟨?_, rfl, ?_⟩
    · intro a ha
      simp only [c1xdb, List.mem_singleton] at ha
      subst ha
      show c1xacct.balance = acctSum c1xdb.transactions c1xacct.id
      norm_num [c1xacct, c1xdb, c1xtxn, acctSum, contribTo, signedAmount]
    · intro hcontra
      have hmem : ({ c1xacct with balance := 999 } : Account)
          ∈ (run_update_account c1xdb c1xacct c1xupd).1.accounts := by
        simp [run_update_account, update_account, initSess, commit, c1xdb, c1xacct,
          c1xupd, updateFirstAccount]
      have := hcontra _ hmem
      simp [run_update_account, update_account, initSess, commit, c1xdb, c1xacct,
        c1xtxn, c1xupd, updateFirstAccount, acctSum, contribTo, signedAmount] at this
  · refine ⟨?_, ?_, ?_⟩
    · intro a ha
      simp only [c1ydb, List.mem_singleton] at ha
      subst ha
      show c1yacct.balance = acctSum c1ydb.transactions c1yacct.id
      norm_num [c1yacct, c1ydb, c1ytxn, acctSum, contribTo, signedAmount]
    · simp [run_update_transaction, update_transaction, applyTransactionUpdate,
        adjust_account_balance, initSess, commit, updateFirstTransaction,
        updateFirstAccount, c1ydb, c1yacct, c1ytxn, c1yupd, List.find?]
    · intro hcontra
      have hmem : ({ c1yacct with balance := 0 } : Account)
          ∈ (run_update_transaction c1ydb c1ytxn c1yupd).1.accounts := by
        simp [run_update_transaction, update_transaction, applyTransactionUpdate,
          adjust_account_balance, initSess, commit, updateFirstTransaction,
          updateFirstAccount, c1ydb, c1yacct, c1ytxn, c1yupd, List.find?]
      have := hcontra _ hmem
      simp [run_update_transaction, update_transaction, applyTransactionUpdate,
        adjust_account_balance, initSess, commit, updateFirstTransaction,
        updateFirstAccount, c1ydb, c1yacct, c1ytxn, c1yupd, List.find?,
        acctSum, contribTo, signedAmount] at this

/-- C3: a transaction update together with its balance adjustments is NOT
one atomic unit.  On the concrete store `c3db` (account 1 at balance 10,
one income-10 transaction), updating the transaction type to the invalid
string `"transfer"` fails with `ValueError`, yet the commit issued inside
the first `_adjust_account_balance` call has already persisted both the
modified row (type `"transfer"`) and the reversal on the account (balance
0): the claimed full rollback does not happen. -/
theorem c3_partial_commit_on_failure :
    (run_update_transaction c3db c3txn c3upd).2.2 = Except.error PyError.invalidTransactionType
    ∧ balanceOf (run_update_transaction c3db c3txn c3upd).1 1 = some 0
    ∧ balanceOf c3db 1 = some 10
    ∧ ((run_update_transaction c3db c3txn c3upd).1.transactions.map Transaction.type)
        = ["transfer"]
    ∧ (c3db.transactions.map Transaction.type) = ["income"]
    ∧ (run_update_transaction c3db c3txn c3upd).2.1
        = [⟨1, 10, "expense"⟩, ⟨1, 10, "transfer"⟩] := by
  refine ⟨?_, ?_, ?_, ?_, ?_, ?_⟩ <;>
    simp [run_update_transaction, update_transaction, applyTransactionUpdate,
      adjust_account_balance, initSess, commit, updateFirstTransaction,
      updateFirstAccount, balanceOf, c3db, c3acct, c3txn, c3upd, List.find?]

/-- C6: an invalid transaction type does reach the Balance Adjustment
Engine after passing all of the create endpoint's validation.  On `c6db`
the caller owns account 1, the request carries type `"transfer"`, the
endpoint's checks (user match, account ownership, category existence) all
pass, the engine is invoked with `"transfer"` (see the call log) and raises,
surfacing as an unhandled error. -/
theorem c6_invalid_type_reaches_engine :
    (create_transaction_for_user_api c6db 7 7 c6tc 1).2.2 = ApiOutcome.internalError
    ∧ (create_transaction_for_user_api c6db 7 7 c6tc 1).2.1 = [⟨1, 5, "transfer"⟩]
    ∧ (get_account c6db c6tc.account_id (some 7)).isSome = true
    ∧ (create_transaction_for_user_api c6db 7 7 c6tc 1).1 = c6db := by
  refine ⟨?_, ?_, ?_, ?_⟩ <;>
    simp [create_transaction_for_user_api, run_create_user_transaction,
      create_user_transaction, adjust_account_balance, get_account, initSess,
      commit, c6db, c6acct, c6tc, List.find?]

/-- C8: crud.create_category dereferences the `type` attribute of
models.Category, but the ORM model declares no such column (its columns are
`id` and `name`, with `name` unique), so the (name, type)-scoped uniqueness
check cannot run as written. -/
theorem c8_model_missing_type_column :
    "type" ∈ createCategoryReferencedColumns
    ∧ "type" ∉ categoryModelColumns
    ∧ categoryModelNameUnique = true := by
  refine ⟨?_, ?_, rfl⟩ <;> decide


/-- Witness for C1: on a concrete two-account store satisfying the
invariant, a successful cross-account transaction update preserves it. -/
theorem c1_witness :
    (c1wdb.accounts.map Account.id).Nodup
    ∧ (c1wdb.transactions.map Transaction.id).Nodup
    ∧ BalanceInvariant c1wdb
    ∧ c1wtxn1 ∈ c1wdb.transactions
    ∧ BalanceInvariant (run_update_transaction c1wdb c1wtxn1 c1wupd).1 := by
  have hA : (c1wdb.accounts.map Account.id).Nodup := by
    simp [c1wdb, c1wacct1, c1wacct2]
  have hT : (c1wdb.transactions.map Transaction.id).Nodup := by
    simp [c1wdb, c1wtxn1, c1wtxn2]
  have hinv : BalanceInvariant c1wdb := by
    intro a ha
    have ha2 : a = c1wacct1 ∨ a = c1wacct2 := by simpa [c1wdb] using ha
    rcases ha2 with h | h <;> subst h <;>
      simp [c1wacct1, c1wacct2, c1wdb, c1wtxn1, c1wtxn2, acctSum, contribTo,
        signedAmount]
  have hmem : c1wtxn1 ∈ c1wdb.transactions := by simp [c1wdb]
  have hok : (run_update_transaction c1wdb c1wtxn1 c1wupd).2.2
      = Except.ok (applyTransactionUpdate c1wtxn1 c1wupd) := by
    simp [run_update_transaction, update_transaction, applyTransactionUpdate,
      adjust_account_balance, initSess, commit, updateFirstTransaction,
      updateFirstAccount, c1wdb, c1wacct1, c1wacct2, c1wtxn1, c1wtxn2, c1wupd,
      List.find?]
  exact ⟨hA, hT, hinv, hmem,
    (c1_amended_invariant_preservation c1wdb hA hT hinv).2.1 c1wtxn1 c1wupd
      (run_update_transaction c1wdb c1wtxn1 c1wupd).1
      (run_update_transaction c1wdb c1wtxn1 c1wupd).2.1
      (applyTransactionUpdate c1wtxn1 c1wupd) hmem (by rw [← hok])⟩

/-- Witness for C2: setting the account reference to its current value,
with no other balance-relevant change, issues no engine calls. -/
theorem c2_witness :
    c2upd.account_id = some c2txn.account_id
    ∧ c2upd.amount = none
    ∧ c2upd.type = none
    ∧ (run_update_transaction c2db c2txn c2upd).2.1 = [] :=
  ⟨rfl, rfl, rfl, (c2_update_reconciliation c2db c2txn c2upd).2.2.2 rfl rfl rfl⟩

/-- Witness for C4: creating a 5-income transaction on the account with
balance 3 and then deleting it restores the store exactly. -/
theorem c4_witness :
    c4tc.type = "income"
    ∧ (∀ t2 ∈ c4db.transactions, t2.id ≠ 1)
    ∧ (run_delete_transaction (run_create_user_transaction c4db c4tc 7 1).1
        (Transaction.mk 1 c4tc.amount c4tc.type c4tc.description (c4tc.date.getD 0) 7 c4tc.account_id c4tc.category_id)).1 = c4db := by
  have hfresh : ∀ t2 ∈ c4db.transactions, t2.id ≠ 1 := by simp [c4db]
  have hok : (run_create_user_transaction c4db c4tc 7 1).2.2
      = Except.ok (Transaction.mk 1 c4tc.amount c4tc.type c4tc.description (c4tc.date.getD 0) 7 c4tc.account_id c4tc.category_id) := by
    simp [run_create_user_transaction, create_user_transaction, adjust_account_balance,
      initSess, commit, c4db, c4tc, List.find?]
  exact ⟨rfl, hfresh,
    c4_reversal_roundtrip.2 c4db c4tc 7 1
      (run_create_user_transaction c4db c4tc 7 1).1
      (run_create_user_transaction c4db c4tc 7 1).2.1
      (Transaction.mk 1 c4tc.amount c4tc.type c4tc.description (c4tc.date.getD 0) 7 c4tc.account_id c4tc.category_id)
      rfl hfresh (by rw [← hok])⟩

/-- Witness for C5: on the concrete store the engine adds an income amount
to the found account's balance and reports the updated account. -/
theorem c5_witness :
    c5db.accounts.find? (fun a => a.id == 1) = some c5acct
    ∧ (adjust_account_balance (initSess c5db) 1 2 "income").2
        = Except.ok (some ({ c5acct with balance := c5acct.balance + 2 }))
    ∧ balanceOf (adjust_account_balance (initSess c5db) 1 2 "income").1.persisted 1
        = some (c5acct.balance + 2) := by
  have hfind : c5db.accounts.find? (fun a => a.id == 1) = some c5acct := by
    simp [c5db, c5acct, List.find?]
  have h := ((c5_adjust_engine_contract c5db 1 2 "income").2 c5acct hfind).1 rfl
  exact ⟨hfind, h.1, h.2.1⟩

/-- Witness for C7: user 2 requesting user 1's account, transaction and
budget by id receives NotFound, not Forbidden. -/
theorem c7_witness :
    (2 : Nat) ≠ 0
    ∧ (∀ a ∈ c7db.accounts, a.id = 1 → a.owner_id ≠ 2)
    ∧ (∀ t ∈ c7db.transactions, t.id = 1 → t.user_id ≠ 2)
    ∧ (∀ b ∈ c7db.budgets, b.id = 1 → b.user_id ≠ 2)
    ∧ read_user_account_by_id_api c7db 2 2 1 = ApiOutcome.notFound
    ∧ read_transaction_api c7db 2 2 1 = ApiOutcome.notFound
    ∧ read_budget_api c7db 2 2 1 = ApiOutcome.notFound := by
  have ha : ∀ a ∈ c7db.accounts, a.id = 1 → a.owner_id ≠ 2 := by
    simp [c7db, c7acct]
  have ht : ∀ t ∈ c7db.transactions, t.id = 1 → t.user_id ≠ 2 := by
    simp [c7db, c7txn]
  have hb : ∀ b ∈ c7db.budgets, b.id = 1 → b.user_id ≠ 2 := by
    simp [c7db, c7bud]
  have h := c7_ownership_notfound_folding c7db 2 (by simp) 1 1 1 ha ht hb
  exact ⟨by simp, ha, ht, hb, h.1, h.2.1, h.2.2⟩

/-- Witness for C9: creating the same budget twice on the concrete store
succeeds once, is rejected the second time, and leaves exactly one row. -/
theorem c9_witness :
    (get_category c9db c9bc.category_id).isSome = true
    ∧ budgetCount c9db 1 c9bc.category_id = 0
    ∧ (∃ b, (create_budget_for_user_api c9db 1 1 c9bc 1).2 = ApiOutcome.ok b)
    ∧ (create_budget_for_user_api
        (create_budget_for_user_api c9db 1 1 c9bc 1).1 1 1 c9bc 2).2
        = ApiOutcome.badRequest
    ∧ budgetCount (create_budget_for_user_api
        (create_budget_for_user_api c9db 1 1 c9bc 1).1 1 1 c9bc 2).1
        1 c9bc.category_id = 1 := by
  have hcat : (get_category c9db c9bc.category_id).isSome = true := by
    simp [get_category, c9db, c9bc, List.find?]
  have h0 : budgetCount c9db 1 c9bc.category_id = 0 := rfl
  have h := c9_duplicate_budget_rejected c9db 1 c9bc 1 2 hcat h0
  exact ⟨hcat, h0, h.1, h.2.2.1, h.2.2.2⟩

/-- Witness for C10: on the concrete store the default-paginated
transaction listing returns at most 100 rows and only the owner's rows. -/
theorem c10_witness :
    (get_transactions c10db 7 none none none none "date" "desc"
      default_skip default_limit).length ≤ 100
    ∧ (∀ t ∈ get_transactions c10db 7 none none none none "date" "desc"
        default_skip default_limit, t.user_id = 7) := by
  have h := c10_pagination_defaults c10db c10rows 7 none none none none none "date" "desc"
  exact ⟨h.2.2.2.2.1, fun t ht => ((h.2.2.2.2.2.2.1) t ht).1⟩

end FinanceApp
